import Mathlib

/-!
Verification of the name-resolution and identity-consistency layer of the
code-push-server repository:

* `src/api/script/storage/storage.ts` — the `Storage` interface, pure helper
  functions (`isOwnedByCurrentUser`, `getOwnerEmail`, `isPrototypePollutionKey`)
  and the `NameResolver` class;
* `src/api/script/storage/s3-storage.ts` — the in-memory map-backed
  implementation `S3Storage` (accounts, apps, collaborators, deployments,
  package history, access keys, and their index maps).

JavaScript plain objects used as string-keyed dictionaries are embedded as
association lists `List (String × α)` that keep insertion order, mirroring the
enumeration order of JS object keys.  `jsGet`/`jsSet`/`jsErase` model property
read, property assignment and `delete`.  Fallible operations return
`Except Failure _`; a rejected promise carrying a `Storage.StorageError` is the
`Failure.storage` case, while a thrown JS `TypeError` (e.g. reading or writing
a property of `undefined`) is `Failure.jsTypeError`.  Since the embedding is
pure and every operation returns its post-state only on success, an operation
that fails leaves the caller's state unchanged by construction.
-/

/-- Property read `m[k]` on a JS object embedded as an association list:
the first binding of `k` wins (JS objects have unique keys, so on faithfully
built states there is at most one). -/
def jsGet {α : Type} : List (String × α) → String → Option α
  | [], _ => none
  | (a, v) :: rest, k => if a = k then some v else jsGet rest k

/-- Property assignment `m[k] = v`: updates the first binding of `k` in place
(keeping its enumeration position, as JS does), or appends a new binding. -/
def jsSet {α : Type} : List (String × α) → String → α → List (String × α)
  | [], k, v => [(k, v)]
  | (a, w) :: rest, k, v =>
    if a = k then (a, v) :: rest else (a, w) :: jsSet rest k v

/-- Property deletion `delete m[k]`: removes the first binding of `k`. -/
def jsErase {α : Type} : List (String × α) → String → List (String × α)
  | [], _ => []
  | (a, w) :: rest, k => if a = k then rest else (a, w) :: jsErase rest k

/-- JS coerces an `undefined` property key to the string `"undefined"`
(`obj[x]` with `x === undefined` reads `obj["undefined"]`).  Used where the
source indexes a map with an optional id field. -/
def jsKey : Option String → String
  | some s => s
  | none => "undefined"

/-- JS `String.prototype.toLowerCase` (ASCII range, as used on e-mail
addresses here), character by character. -/
def jsToLower (s : String) : String := String.mk (s.toList.map Char.toLower)

theorem jsGet_jsSet_self {α : Type} (m : List (String × α)) (k : String) (v : α) :
    jsGet (jsSet m k v) k = some v := by
  induction m with
  | nil => simp [jsGet, jsSet]
  | cons p rest ih =>
    by_cases h : p.1 = k
    · simp [jsGet, jsSet, h]
    · simp [jsGet, jsSet, h, ih]

theorem jsGet_jsSet_ne {α : Type} (m : List (String × α)) (k k' : String) (v : α)
    (h : k ≠ k') : jsGet (jsSet m k v) k' = jsGet m k' := by
  induction m with
  | nil => simp [jsGet, jsSet, h]
  | cons p rest ih =>
    obtain ⟨a, w⟩ := p
    by_cases hp : a = k
    · subst hp
      simp [jsGet, jsSet, h]
    · simp [jsGet, jsSet, hp, ih]

theorem jsGet_eq_none_of_not_mem {α : Type} (m : List (String × α)) (k : String)
    (h : k ∉ m.map Prod.fst) : jsGet m k = none := by
  induction m with
  | nil => rfl
  | cons p rest ih =>
    simp only [List.map_cons, List.mem_cons] at h
    push_neg at h
    have hne : p.1 ≠ k := fun hh => h.1 hh.symm
    simpa [jsGet, hne] using ih h.2

theorem jsGet_map_snd {α β : Type} (f : α → β) (m : List (String × α)) (k : String) :
    jsGet (m.map (fun p => (p.1, f p.2))) k = (jsGet m k).map f := by
  induction m with
  | nil => simp [jsGet]
  | cons p rest ih =>
    by_cases h : p.1 = k
    · simp [jsGet, h]
    · simp [jsGet, h, ih]

theorem jsGet_jsErase_self {α : Type} (m : List (String × α)) (k : String)
    (hnd : (m.map Prod.fst).Nodup) : jsGet (jsErase m k) k = none := by
  induction m with
  | nil => simp [jsGet, jsErase]
  | cons p rest ih =>
    obtain ⟨a, w⟩ := p
    simp only [List.map_cons, List.nodup_cons] at hnd
    by_cases h : a = k
    · subst h
      simpa [jsErase] using jsGet_eq_none_of_not_mem rest a hnd.1
    · simp [jsGet, jsErase, h, ih hnd.2]

theorem jsGet_jsErase_ne {α : Type} (m : List (String × α)) (k k' : String)
    (h : k ≠ k') : jsGet (jsErase m k) k' = jsGet m k' := by
  induction m with
  | nil => simp [jsGet, jsErase]
  | cons p rest ih =>
    obtain ⟨a, w⟩ := p
    by_cases hp : a = k
    · subst hp
      simp [jsGet, jsErase, h]
    · simp [jsGet, jsErase, hp, ih]

/-- `Except.isOk` spelled out, for stating that an operation succeeded. -/
def exceptIsOk {ε α : Type} : Except ε α → Bool
  | .ok _ => true
  | .error _ => false

/-! ## Entity model (`storage.ts`) -/

/-- `ErrorCode` from storage.ts. -/
inductive ErrorCode where
  | ConnectionFailed
  | NotFound
  | AlreadyExists
  | TooLarge
  | Expired
  | Invalid
  | Other
deriving DecidableEq, Repr

/-- Failure of a storage operation: either a rejected promise carrying a
`Storage.StorageError` (code + optional message), or a thrown JS `TypeError`
(reading/writing a property of `undefined`). -/
inductive Failure where
  | storage (code : ErrorCode) (message : Option String)
  | jsTypeError
deriving DecidableEq, Repr

def Permissions.Owner : String := "Owner"

def Permissions.Collaborator : String := "Collaborator"

/-- `CollaboratorProperties` from storage.ts.  `accountId` and
`isCurrentAccount` are optional in the source; `isCurrentAccount` is a
transient view-time decoration. -/
structure CollaboratorProperties where
  accountId : Option String := none
  isCurrentAccount : Option Bool := none
  permission : String
deriving DecidableEq, Repr

/-- `Account` from storage.ts. -/
structure Account where
  azureAdId : Option String := none
  createdTime : Nat
  email : String
  gitHubId : Option String := none
  id : Option String := none
  microsoftId : Option String := none
  name : String
deriving DecidableEq, Repr

/-- `App` from storage.ts.  The `collaborators` field is written `?` in the
interface, but every app stored by `S3Storage.addApp` carries a collaborator
object, so stored apps always have one (possibly empty); `{}` is truthy in JS,
so `NameResolver.findByName` dispatches such a list to the app overload. -/
structure App where
  collaborators : List (String × CollaboratorProperties) := []
  createdTime : Nat
  id : Option String := none
  name : String
deriving DecidableEq, Repr

/-- `BlobInfo` from storage.ts. -/
structure BlobInfo where
  size : Nat
  url : String
deriving DecidableEq, Repr

/-- `Package` from storage.ts. -/
structure Package where
  appVersion : String
  blobUrl : String
  description : String
  diffPackageMap : Option (List (String × BlobInfo)) := none
  isDisabled : Bool
  isMandatory : Bool
  label : Option String := none
  manifestBlobUrl : String
  originalDeployment : Option String := none
  originalLabel : Option String := none
  packageHash : String
  releasedBy : Option String := none
  releaseMethod : Option String := none
  rollout : Option Nat := none
  size : Nat
  uploadTime : Nat
deriving DecidableEq, Repr

/-- `Deployment` from storage.ts.  `packageHistory` is not declared on the
interface but is attached to every stored deployment by
`S3Storage.addDeployment` (`(<any>deployment).packageHistory = []`). -/
structure Deployment where
  createdTime : Nat
  id : Option String := none
  name : String
  key : String
  package : Option Package := none
  packageHistory : List Package := []
deriving DecidableEq, Repr

/-- `AccessKey` from storage.ts. -/
structure AccessKey where
  createdBy : String
  createdTime : Nat
  expires : Nat
  description : Option String := none
  friendlyName : String
  id : Option String := none
  isSession : Option Bool := none
  name : String
deriving DecidableEq, Repr

/-! ## Pure helpers from storage.ts -/

/-- `isOwnedByCurrentUser` (storage.ts): some collaborator entry is flagged
`isCurrentAccount` (truthy, i.e. `some true`) with permission `Owner`. -/
def isOwnedByCurrentUser (app : App) : Bool :=
  app.collaborators.any fun p =>
    (p.2.isCurrentAccount == some true) && (p.2.permission == Permissions.Owner)

/-- `getOwnerEmail` (storage.ts): first collaborator email with permission
`Owner`, else `null`. -/
def getOwnerEmail (app : App) : Option String :=
  (app.collaborators.find? fun p => p.2.permission == Permissions.Owner).map Prod.fst

/-- `isPrototypePollutionKey` (storage.ts). -/
def isPrototypePollutionKey (key : String) : Bool :=
  key == "__proto__" || key == "constructor" || key == "prototype"

/-! ## NameResolver (storage.ts) -/

/-- JS `String.prototype.split` with a single-character separator, on the
character list: `"" → [""]`, `"a:b" → ["a","b"]`, `"a:" → ["a",""]`. -/
def splitOnCharList (sep : Char) : List Char → List (List Char)
  | [] => [[]]
  | c :: cs =>
    if c = sep then [] :: splitOnCharList sep cs
    else
      match splitOnCharList sep cs with
      | [] => [[c]]
      | g :: gs => (c :: g) :: gs

/-- JS `s.split(sep)` for a single-character separator. -/
def jsSplit (sep : Char) (s : String) : List String :=
  (splitOnCharList sep s.toList).map fun l => String.mk l

/-- `NameResolver.findAppByName` (storage.ts), the unqualified branch
(`ownerEmail` falsy): select the only name-matching app if there is exactly
one, otherwise the first name-matching app owned by the current account,
otherwise none. -/
def NameResolver.findAppUnqualified (apps : List App) (rawName : String) : Option App :=
  let candidates := apps.filter fun a => a.name == rawName
  if candidates.length = 1 then candidates.head?
  else candidates.find? fun a => isOwnedByCurrentUser a

/-- `NameResolver.findAppByName` (storage.ts): split the display name on
colons; one component means a bare name, two mean `ownerEmail:name` (an empty
owner email is falsy in JS, so it falls back to the unqualified search), more
mean no match.  With an owner email, return the first name-matching app whose
entry for that email has permission `Owner`. -/
def NameResolver.findAppByName (apps : List App) (displayName : String) : Option App :=
  match jsSplit ':' displayName with
  | [rawName] => NameResolver.findAppUnqualified apps rawName
  | [ownerEmail, rawName] =>
    if ownerEmail = "" then NameResolver.findAppUnqualified apps rawName
    else
      (apps.filter fun a => a.name == rawName).find? fun a =>
        match jsGet a.collaborators ownerEmail with
        | some c => c.permission == Permissions.Owner
        | none => false
  | _ => none

/-- `NameResolver.findByName` on a list of apps (storage.ts): an empty list
yields no match; a non-empty list of stored apps (which always carry a truthy
collaborators object) dispatches to `findAppByName`. -/
def NameResolver.findByNameApp (items : List App) (displayName : String) : Option App :=
  if items.isEmpty then none
  else NameResolver.findAppByName items displayName

/-- `NameResolver.resolveApp` (storage.ts), given the app list that
`storage.getApps(accountId)` resolved with: a missing match raises `NotFound`,
whose message the `errorMessageOverride` catch rewrites. -/
def NameResolver.resolveAppFromApps (apps : List App) (name : String) : Except Failure App :=
  match NameResolver.findByNameApp apps name with
  | some app => .ok app
  | none =>
    .error (.storage ErrorCode.NotFound (some ("App \"" ++ name ++ "\" does not exist.")))

/-! ## S3Storage state and operations (s3-storage.ts)

The in-memory state of `S3Storage`: the entity maps and index maps, plus the
static id counter `S3Storage.NextIdNumber`.  Maps never written by any modeled
operation (`packages`, `blobs`) are omitted. -/

structure S3StorageState where
  nextIdNumber : Nat := 0
  accounts : List (String × Account) := []
  apps : List (String × App) := []
  deployments : List (String × Deployment) := []
  accessKeys : List (String × AccessKey) := []
  accountToAppsMap : List (String × List String) := []
  appToAccountMap : List (String × String) := []
  emailToAccountMap : List (String × String) := []
  appToDeploymentsMap : List (String × List String) := []
  deploymentToAppMap : List (String × String) := []
  deploymentKeyToDeploymentMap : List (String × String) := []
  accountToAccessKeysMap : List (String × List String) := []
  accessKeyToAccountMap : List (String × String) := []
deriving DecidableEq, Repr

/-- The static string `S3Storage.CollaboratorNotFound`. -/
def S3Storage.CollaboratorNotFound : String :=
  "The specified e-mail address doesn't represent a registered user"

/-- Entry-wise effect of `addIsCurrentAccountProperty`: flag entries whose
`accountId` is the calling account. -/
def decorateEntry (accountId : String) (e : CollaboratorProperties) : CollaboratorProperties :=
  if e.accountId == some accountId then { e with isCurrentAccount := some true } else e

/-- `S3Storage.addIsCurrentAccountProperty`. -/
def addIsCurrentAccountProperty (accountId : String) (app : App) : App :=
  { app with collaborators := app.collaborators.map fun p => (p.1, decorateEntry accountId p.2) }

/-- Entry-wise effect of `removeIsCurrentAccountProperty`: the property is
deleted only where it is truthy. -/
def stripEntry (e : CollaboratorProperties) : CollaboratorProperties :=
  if e.isCurrentAccount == some true then { e with isCurrentAccount := none } else e

/-- `S3Storage.removeIsCurrentAccountProperty`. -/
def removeIsCurrentAccountProperty (app : App) : App :=
  { app with collaborators := app.collaborators.map fun p => (p.1, stripEntry p.2) }

/-- `S3Storage.isOwner`.  (For a denylisted key such as `"__proto__"` the JS
lookup finds an inherited object whose `permission` is `undefined`, so the
comparison is `false` there exactly as it is for a missing binding here.) -/
def S3Storage.isOwner (list : List (String × CollaboratorProperties)) (email : String) : Bool :=
  match jsGet list email with
  | some c => c.permission == Permissions.Owner
  | none => false

/-- `S3Storage.isCollaborator`. -/
def S3Storage.isCollaborator (list : List (String × CollaboratorProperties)) (email : String) : Bool :=
  match jsGet list email with
  | some c => c.permission == Permissions.Collaborator
  | none => false

/-- `S3Storage.newId`: `"id_" + NextIdNumber`, incrementing the static
counter. -/
def S3Storage.newId (s : S3StorageState) : String × S3StorageState :=
  ("id_" ++ toString s.nextIdNumber, { s with nextIdNumber := s.nextIdNumber + 1 })

/-- `S3Storage.addAppPointer`: push `appId` onto `accountToAppsMap[accountId]`
unless already present.  If the account has no entry in the map, the JS code
calls `indexOf` on `undefined` and throws. -/
def S3Storage.addAppPointer (s : S3StorageState) (accountId appId : String) :
    Except Failure S3StorageState :=
  match jsGet s.accountToAppsMap accountId with
  | none => .error .jsTypeError
  | some accountApps =>
    if accountApps.contains appId then .ok s
    else .ok { s with accountToAppsMap := jsSet s.accountToAppsMap accountId (accountApps ++ [appId]) }

/-- `S3Storage.removeAppPointer`: splice `appId` out of
`accountToAppsMap[accountId]` (first occurrence, no-op when absent). -/
def S3Storage.removeAppPointer (s : S3StorageState) (accountId appId : String) :
    Except Failure S3StorageState :=
  match jsGet s.accountToAppsMap accountId with
  | none => .error .jsTypeError
  | some accountApps =>
    .ok { s with accountToAppsMap := jsSet s.accountToAppsMap accountId (accountApps.erase appId) }

/-- `S3Storage.getApp`: requires `accounts[accountId]` and `apps[appId]` to
exist (nothing more — the ownership chain is not checked), then returns a
clone of the stored app decorated with `isCurrentAccount`. -/
def S3Storage.getApp (s : S3StorageState) (accountId appId : String) : Except Failure App :=
  match jsGet s.accounts accountId, jsGet s.apps appId with
  | some _, some app => .ok (addIsCurrentAccountProperty accountId app)
  | _, _ => .error (.storage ErrorCode.NotFound none)

/-- `S3Storage.updateApp`: requires `accounts[accountId]` and
`apps[app.id]` to exist, strips the transient decoration and merges the whole
app record over the stored one (every field of the passed clone is present, so
the merge is a full replacement).  The `ensureIsOwner` parameter of the source
is unused by its body. -/
def S3Storage.updateApp (s : S3StorageState) (accountId : String) (app : App) :
    Except Failure S3StorageState :=
  match jsGet s.accounts accountId, jsGet s.apps (jsKey app.id) with
  | some _, some _ =>
    .ok { s with apps := jsSet s.apps (jsKey app.id) (removeIsCurrentAccountProperty app) }
  | _, _ => .error (.storage ErrorCode.NotFound none)

/-- `S3Storage.addApp`: requires the account to exist; assigns a fresh id,
replaces the collaborator map by a single `Owner` entry for the creating
account (keyed by its stored email), registers the app in
`accountToAppsMap`, `appToDeploymentsMap` and `appToAccountMap`, and stores
it.  Returns the stored app. -/
def S3Storage.addApp (s : S3StorageState) (accountId : String) (app : App) :
    Except Failure (App × S3StorageState) :=
  match jsGet s.accounts accountId with
  | none => .error (.storage ErrorCode.NotFound none)
  | some account =>
    let p := S3Storage.newId s
    let id := p.1
    let s1 := p.2
    let app1 : App :=
      { app with
        id := some id
        collaborators :=
          [(account.email, { accountId := some accountId, permission := Permissions.Owner })] }
    match jsGet s1.accountToAppsMap accountId with
    | none => .error .jsTypeError
    | some accountApps =>
      let s2 :=
        if accountApps.contains id then s1
        else { s1 with accountToAppsMap := jsSet s1.accountToAppsMap accountId (accountApps ++ [id]) }
      let s3 :=
        match jsGet s2.appToDeploymentsMap id with
        | some _ => s2
        | none => { s2 with appToDeploymentsMap := jsSet s2.appToDeploymentsMap id [] }
      let s4 :=
        { s3 with
          appToAccountMap := jsSet s3.appToAccountMap id accountId
          apps := jsSet s3.apps id app1 }
      .ok (app1, s4)

/-- `S3Storage.getApps`: the app collection of `accountToAppsMap[accountId]`,
each entry looked up in `apps` (a dangling id yields a `null` element after
the JSON clone, hence `Option App`) and decorated with `isCurrentAccount`;
`NotFound` when the account has no entry in the index map. -/
def S3Storage.getApps (s : S3StorageState) (accountId : String) :
    Except Failure (List (Option App)) :=
  match jsGet s.accountToAppsMap accountId with
  | some appIds =>
    .ok (appIds.map fun id => (jsGet s.apps id).map (addIsCurrentAccountProperty accountId))
  | none => .error (.storage ErrorCode.NotFound none)

/-- `S3Storage.transferApp`: denylist guard, then read the app; resolve the
target account from `emailToAccountMap` (else `NotFound`), rebind `email` to
the target account's stored email, reject if that email already owns the app
(`AlreadyExists`); then demote the *requesting* account's entry to
`Collaborator` (a JS `TypeError` if the requester has no entry) and promote or
insert an `Owner` entry for the target, finally writing the app back. -/
def S3Storage.transferApp (s : S3StorageState) (accountId appId email : String) :
    Except Failure S3StorageState :=
  if isPrototypePollutionKey email then
    .error (.storage ErrorCode.Invalid (some "Invalid email parameter"))
  else
    match S3Storage.getApp s accountId appId with
    | .error e => .error e
    | .ok app =>
      match jsGet s.accounts accountId with
      | none => .error .jsTypeError
      | some account =>
        let requesterEmail := account.email
        match jsGet s.emailToAccountMap (jsToLower email) with
        | none => .error (.storage ErrorCode.NotFound (some S3Storage.CollaboratorNotFound))
        | some targetOwnerAccountId =>
          match jsGet s.accounts targetOwnerAccountId with
          | none => .error .jsTypeError
          | some targetAccount =>
            let email1 := targetAccount.email
            if S3Storage.isOwner app.collaborators email1 then
              .error (.storage ErrorCode.AlreadyExists none)
            else
              match jsGet app.collaborators requesterEmail with
              | none => .error .jsTypeError
              | some requesterEntry =>
                let app1 :=
                  { app with
                    collaborators :=
                      jsSet app.collaborators requesterEmail
                        { requesterEntry with permission := Permissions.Collaborator } }
                if S3Storage.isCollaborator app1.collaborators email1 then
                  match jsGet app1.collaborators email1 with
                  | none => .error .jsTypeError
                  | some targetEntry =>
                    let app2 :=
                      { app1 with
                        collaborators :=
                          jsSet app1.collaborators email1
                            { targetEntry with permission := Permissions.Owner } }
                    S3Storage.updateApp s accountId app2
                else
                  let app2 :=
                    { app1 with
                      collaborators :=
                        jsSet app1.collaborators email1
                          { accountId := some targetOwnerAccountId
                            permission := Permissions.Owner } }
                  match S3Storage.addAppPointer s targetOwnerAccountId (jsKey app2.id) with
                  | .error e => .error e
                  | .ok s1 => S3Storage.updateApp s1 accountId app2

/-- `S3Storage.addCollaborator`: denylist guard, read the app, reject if the
raw email is already a collaborator or the owner (`AlreadyExists`), resolve
the target account (else `NotFound`), rebind the email to the account's
stored email, insert a `Collaborator` entry, add the reverse index pointer,
and write the app back. -/
def S3Storage.addCollaborator (s : S3StorageState) (accountId appId email : String) :
    Except Failure S3StorageState :=
  if isPrototypePollutionKey email then
    .error (.storage ErrorCode.Invalid (some "Invalid email parameter"))
  else
    match S3Storage.getApp s accountId appId with
    | .error e => .error e
    | .ok app =>
      if S3Storage.isCollaborator app.collaborators email || S3Storage.isOwner app.collaborators email then
        .error (.storage ErrorCode.AlreadyExists none)
      else
        match jsGet s.emailToAccountMap (jsToLower email) with
        | none => .error (.storage ErrorCode.NotFound (some S3Storage.CollaboratorNotFound))
        | some targetCollaboratorAccountId =>
          match jsGet s.accounts targetCollaboratorAccountId with
          | none => .error .jsTypeError
          | some targetAccount =>
            let email1 := targetAccount.email
            let app1 :=
              { app with
                collaborators :=
                  jsSet app.collaborators email1
                    { accountId := some targetCollaboratorAccountId
                      permission := Permissions.Collaborator } }
            match S3Storage.addAppPointer s targetCollaboratorAccountId (jsKey app1.id) with
            | .error e => .error e
            | .ok s1 => S3Storage.updateApp s1 accountId app1

/-- `S3Storage.removeCollaborator`: read the app; reject with `AlreadyExists`
if the email currently owns the app; reject with `NotFound` if the email is
not a collaborator or has no registered account; otherwise remove the reverse
index pointer and delete the collaborator entry, writing the app back.  Note:
no denylist guard in the source. -/
def S3Storage.removeCollaborator (s : S3StorageState) (accountId appId email : String) :
    Except Failure S3StorageState :=
  match S3Storage.getApp s accountId appId with
  | .error e => .error e
  | .ok app =>
    if S3Storage.isOwner app.collaborators email then
      .error (.storage ErrorCode.AlreadyExists none)
    else
      match jsGet s.emailToAccountMap (jsToLower email) with
      | none => .error (.storage ErrorCode.NotFound none)
      | some targetCollaboratorAccountId =>
        if !(S3Storage.isCollaborator app.collaborators email) then
          .error (.storage ErrorCode.NotFound none)
        else
          match S3Storage.removeAppPointer s targetCollaboratorAccountId appId with
          | .error e => .error e
          | .ok s1 =>
            let app1 := { app with collaborators := jsErase app.collaborators email }
            S3Storage.updateApp s1 accountId app1

/-- `S3Storage.getDeployment`: requires only that the account id, the app id
and the deployment id each exist (no ownership link between them is
checked). -/
def S3Storage.getDeployment (s : S3StorageState) (accountId appId deploymentId : String) :
    Except Failure Deployment :=
  match jsGet s.accounts accountId, jsGet s.apps appId, jsGet s.deployments deploymentId with
  | some _, some _, some d => .ok d
  | _, _, _ => .error (.storage ErrorCode.NotFound none)

/-- `S3Storage.getDeployments`: the deployment collection of
`appToDeploymentsMap[appId]`, provided the account exists; dangling ids yield
`null` elements. -/
def S3Storage.getDeployments (s : S3StorageState) (accountId appId : String) :
    Except Failure (List (Option Deployment)) :=
  match jsGet s.accounts accountId, jsGet s.appToDeploymentsMap appId with
  | some _, some deploymentIds => .ok (deploymentIds.map (jsGet s.deployments))
  | _, _ => .error (.storage ErrorCode.NotFound none)

/-- `S3Storage.commitPackage`: after the three existence checks, clear the
`rollout` of the current last history entry, append the new package, assign it
the label `"v" + history.length` (the new length), and make it the
deployment's current package.  Returns a clone of the labeled package. -/
def S3Storage.commitPackage (s : S3StorageState) (accountId appId deploymentId : String)
    (appPackage : Package) : Except Failure (Package × S3StorageState) :=
  match jsGet s.accounts accountId, jsGet s.apps appId, jsGet s.deployments deploymentId with
  | some _, some _, some deployment =>
    let history :=
      match deployment.packageHistory.getLast? with
      | some lastPackage => deployment.packageHistory.dropLast ++ [{ lastPackage with rollout := none }]
      | none => deployment.packageHistory
    let newPackage := { appPackage with label := some ("v" ++ toString (history.length + 1)) }
    let deployment1 :=
      { deployment with package := some newPackage, packageHistory := history ++ [newPackage] }
    .ok (newPackage, { s with deployments := jsSet s.deployments deploymentId deployment1 })
  | _, _, _ => .error (.storage ErrorCode.NotFound none)

/-- `S3Storage.clearPackageHistory`: checks only that the deployment id
exists (neither the account nor the app id is consulted), then deletes the
current package and resets the history. -/
def S3Storage.clearPackageHistory (s : S3StorageState)
    ( _accountId _appId deploymentId : String) : Except Failure S3StorageState :=
  match jsGet s.deployments deploymentId with
  | none => .error (.storage ErrorCode.NotFound none)
  | some deployment =>
    .ok { s with
          deployments :=
            jsSet s.deployments deploymentId
              { deployment with package := none, packageHistory := [] } }

/-- `S3Storage.updatePackageHistory`: an empty history is rejected with
`Invalid` before anything is read or written; otherwise the deployment (found
by its id alone) gets the new history wholesale and its current package
becomes the last element. -/
def S3Storage.updatePackageHistory (s : S3StorageState)
    ( _accountId _appId deploymentId : String) (history : List Package) :
    Except Failure S3StorageState :=
  if history.isEmpty then
    .error (.storage ErrorCode.Invalid (some "Cannot clear package history from an update operation"))
  else
    match jsGet s.deployments deploymentId with
    | none => .error (.storage ErrorCode.NotFound none)
    | some deployment =>
      .ok { s with
            deployments :=
              jsSet s.deployments deploymentId
                { deployment with package := history.getLast?, packageHistory := history } }

/-- An update record passed to `S3Storage.updateDeployment`: each field of the
`Deployment` interface may be supplied or absent (`undefined`-valued
properties are dropped by the JSON clone, so absent and `undefined` coincide).
`id` addresses the deployment to update. -/
structure DeploymentUpdate where
  createdTime : Option Nat := none
  id : Option String := none
  name : Option String := none
  key : Option String := none
  package : Option (Option Package) := none
deriving DecidableEq, Repr

/-- `S3Storage.updateDeployment`: after the three existence checks, the
clone's `package` property is deleted (`delete deployment.package` — a no-op
update path for the package), and the remaining supplied properties are merged
over the stored deployment. -/
def S3Storage.updateDeployment (s : S3StorageState) (accountId appId : String)
    (deployment : DeploymentUpdate) : Except Failure S3StorageState :=
  match jsGet s.accounts accountId, jsGet s.apps appId,
      jsGet s.deployments (jsKey deployment.id) with
  | some _, some _, some old =>
    let merged : Deployment :=
      { createdTime := deployment.createdTime.getD old.createdTime
        id := match deployment.id with | some i => some i | none => old.id
        name := deployment.name.getD old.name
        key := deployment.key.getD old.key
        package := old.package
        packageHistory := old.packageHistory }
    .ok { s with deployments := jsSet s.deployments (jsKey deployment.id) merged }
  | _, _, _ => .error (.storage ErrorCode.NotFound none)

/-- `S3Storage.getAccessKeys`: the access-key collection of
`accountToAccessKeysMap[accountId]` — an index entry that is only created
lazily by `addAccessKey`; `NotFound` when the account has no entry, dangling
ids yield `null` elements. -/
def S3Storage.getAccessKeys (s : S3StorageState) (accountId : String) :
    Except Failure (List (Option AccessKey)) :=
  match jsGet s.accountToAccessKeysMap accountId with
  | some accessKeyIds => .ok (accessKeyIds.map (jsGet s.accessKeys))
  | none => .error (.storage ErrorCode.NotFound none)

/-! ## C1: app-name resolution -/

/-- C1: For every account and every list of apps returned by the store for
that account, resolving an unqualified app name (one that splits into a single
colon component) proceeds as follows: among the apps whose name equals the
query, if exactly one exists it is returned; otherwise the first app (if any)
whose collaborator entry for the calling account is flagged `isCurrentAccount`
with permission `Owner` is returned; otherwise `resolveApp` fails `NotFound`.
A query that splits as `ownerEmail:name` (non-empty owner email) instead
returns the name-matching app whose entry for that email is `Owner`.  In
particular two apps of the same name owned by two different other accounts
(so neither is flagged as owned by the calling account) make the unqualified
query fail `NotFound`. -/
theorem C1_resolveApp_characterization :
    (∀ (apps : List App) (query : String) (a : App),
        jsSplit ':' query = [query] →
        apps.filter (fun x => x.name == query) = [a] →
        NameResolver.resolveAppFromApps apps query = .ok a) ∧
    (∀ (apps : List App) (query : String),
        jsSplit ':' query = [query] →
        (apps.filter fun x => x.name == query).length ≠ 1 →
        NameResolver.resolveAppFromApps apps query =
          match (apps.filter fun x => x.name == query).find? isOwnedByCurrentUser with
          | some a => .ok a
          | none =>
            .error (.storage ErrorCode.NotFound
              (some ("App \"" ++ query ++ "\" does not exist.")))) ∧
    (∀ (apps : List App) (ownerEmail rawName query : String),
        jsSplit ':' query = [ownerEmail, rawName] →
        ownerEmail ≠ "" →
        NameResolver.resolveAppFromApps apps query =
          match
            (apps.filter fun x => x.name == rawName).find? (fun x =>
              match jsGet x.collaborators ownerEmail with
              | some c => c.permission == Permissions.Owner
              | none => false) with
          | some a => .ok a
          | none =>
            .error (.storage ErrorCode.NotFound
              (some ("App \"" ++ query ++ "\" does not exist.")))) ∧
    (∀ (a1 a2 : App) (nm : String),
        jsSplit ':' nm = [nm] →
        a1.name = nm → a2.name = nm →
        isOwnedByCurrentUser a1 = false → isOwnedByCurrentUser a2 = false →
        NameResolver.resolveAppFromApps [a1, a2] nm =
          .error (.storage ErrorCode.NotFound
            (some ("App \"" ++ nm ++ "\" does not exist.")))) := by
  have unfoldNonempty :
      ∀ (x : App) (xs : List App) (query : String),
        NameResolver.resolveAppFromApps (x :: xs) query =
          match NameResolver.findAppByName (x :: xs) query with
          | some app => .ok app
          | none =>
            .error (.storage ErrorCode.NotFound
              (some ("App \"" ++ query ++ "\" does not exist."))) := by
    intro x xs query
    simp [NameResolver.resolveAppFromApps, NameResolver.findByNameApp]
  refine ⟨?_, ?_, ?_, ?_⟩
  · intro apps query a hsplit hfilter
    cases apps with
    | nil => simp at hfilter
    | cons x xs =>
      rw [unfoldNonempty]
      have hfind : NameResolver.findAppByName (x :: xs) query = some a := by
        rw [NameResolver.findAppByName, hsplit]
        simp only [NameResolver.findAppUnqualified]
        rw [hfilter]
        simp
      rw [hfind]
  · intro apps query hsplit hlen
    cases apps with
    | nil =>
      simp only [List.filter_nil, List.find?_nil]
      simp [NameResolver.resolveAppFromApps, NameResolver.findByNameApp]
    | cons x xs =>
      rw [unfoldNonempty]
      have hfind : NameResolver.findAppByName (x :: xs) query =
          ((x :: xs).filter fun y => y.name == query).find? isOwnedByCurrentUser := by
        rw [NameResolver.findAppByName, hsplit]
        simp only [NameResolver.findAppUnqualified]
        rw [if_neg hlen]
      rw [hfind]
  · intro apps ownerEmail rawName query hsplit hne
    cases apps with
    | nil =>
      simp only [List.filter_nil, List.find?_nil]
      simp [NameResolver.resolveAppFromApps, NameResolver.findByNameApp]
    | cons x xs =>
      rw [unfoldNonempty]
      have hfind : NameResolver.findAppByName (x :: xs) query =
          ((x :: xs).filter fun y => y.name == rawName).find? (fun y =>
            match jsGet y.collaborators ownerEmail with
            | some c => c.permission == Permissions.Owner
            | none => false) := by
        rw [NameResolver.findAppByName, hsplit]
        simp only []
        rw [if_neg hne]
      rw [hfind]
  · intro a1 a2 nm hsplit h1 h2 ho1 ho2
    rw [unfoldNonempty]
    have hfind : NameResolver.findAppByName [a1, a2] nm = none := by
      rw [NameResolver.findAppByName, hsplit]
      simp only [NameResolver.findAppUnqualified]
      have hfilter : ([a1, a2].filter fun y => y.name == nm) = [a1, a2] := by
        simp [List.filter, h1, h2]
      rw [hfilter]
      simp [List.find?, ho1, ho2]
    rw [hfind]

/-- A store-shaped app named `"foo"` owned by a first other account (no entry
is flagged `isCurrentAccount`). -/
def c1app1 : App :=
  { collaborators := [("owner1@x", { accountId := some "acctOther1", permission := "Owner" })]
    createdTime := 0
    id := some "id_1"
    name := "foo" }

/-- A second app also named `"foo"`, owned by a different other account. -/
def c1app2 : App :=
  { collaborators := [("owner2@x", { accountId := some "acctOther2", permission := "Owner" })]
    createdTime := 0
    id := some "id_2"
    name := "foo" }

theorem C1_resolveApp_characterization_witness :
    NameResolver.resolveAppFromApps [c1app1] "foo" = .ok c1app1 ∧
    NameResolver.resolveAppFromApps [c1app1, c1app2] "foo" =
      .error (.storage ErrorCode.NotFound (some "App \"foo\" does not exist.")) ∧
    NameResolver.resolveAppFromApps [c1app1, c1app2] "owner2@x:foo" = .ok c1app2 := by
  refine ⟨?_, ?_, ?_⟩
  · exact C1_resolveApp_characterization.1 [c1app1] "foo" c1app1 (by decide) (by decide)
  · exact C1_resolveApp_characterization.2.2.2 c1app1 c1app2 "foo" (by decide) (by decide)
      (by decide) (by decide) (by decide)
  · have h := C1_resolveApp_characterization.2.2.1 [c1app1, c1app2] "owner2@x" "foo"
      "owner2@x:foo" (by decide) (by decide)
    rw [h]
    rfl

/-! ## C2: the exactly-one-Owner invariant -/

/-- Number of collaborator entries with permission `Owner`. -/
def ownersCount (collabs : List (String × CollaboratorProperties)) : Nat :=
  (collabs.filter fun p => p.2.permission == Permissions.Owner).length

/-- The app stored under `appId` has exactly one `Owner` entry. -/
def hasExactlyOneOwner (s : S3StorageState) (appId : String) : Prop :=
  ((jsGet s.apps appId).map fun a => ownersCount a.collaborators) = some 1

/-- Accounts `a@x`, `b@x`, `c@x`, each registered in the e-mail index with an
initialized (empty) app list. -/
def c2s0 : S3StorageState :=
  { accounts :=
      [("acctA", { createdTime := 0, email := "a@x", id := some "acctA", name := "A" }),
       ("acctB", { createdTime := 0, email := "b@x", id := some "acctB", name := "B" }),
       ("acctC", { createdTime := 0, email := "c@x", id := some "acctC", name := "C" })]
    emailToAccountMap := [("a@x", "acctA"), ("b@x", "acctB"), ("c@x", "acctC")]
    accountToAppsMap := [("acctA", []), ("acctB", []), ("acctC", [])] }

def c2newApp : App := { createdTime := 0, name := "myapp" }

/-- `a@x` creates the app. -/
def c2run1 : Except Failure (App × S3StorageState) := S3Storage.addApp c2s0 "acctA" c2newApp

/-- `a@x` adds `b@x` as a collaborator. -/
def c2run2 : Except Failure S3StorageState :=
  match c2run1 with
  | .ok p => S3Storage.addCollaborator p.2 "acctA" "id_0" "b@x"
  | .error e => .error e

/-- The collaborator `b@x` (not the owner) transfers the app to `c@x`. -/
def c2run3 : Except Failure S3StorageState :=
  match c2run2 with
  | .ok s => S3Storage.transferApp s "acctB" "id_0" "c@x"
  | .error e => .error e

/-- C2 is false as stated: `addApp` by `a@x`, `addCollaborator` of `b@x` and a
`transferApp` to `c@x` invoked by the non-owner collaborator `b@x` all
individually succeed, yet the final app has TWO `Owner` entries (`a@x` was
never demoted because `transferApp` demotes the requester's entry, and `b@x`
was already a mere collaborator). -/
theorem C2_counterexample :
    exceptIsOk c2run1 = true ∧ exceptIsOk c2run2 = true ∧ exceptIsOk c2run3 = true ∧
    (match c2run3 with
     | .ok s => (jsGet s.apps "id_0").map fun a => ownersCount a.collaborators
     | .error _ => none) = some 2 := by
  refine ⟨rfl, rfl, rfl, rfl⟩

theorem ownersCount_cons (a : String) (w : CollaboratorProperties)
    (t : List (String × CollaboratorProperties)) :
    ownersCount ((a, w) :: t) =
      (if (w.permission == Permissions.Owner) = true then 1 else 0) + ownersCount t := by
  simp only [ownersCount, List.filter_cons]
  split
  · simp [Nat.add_comm]
  · simp

theorem ownersCount_jsSet_not_owner (m : List (String × CollaboratorProperties))
    (k : String) (v : CollaboratorProperties)
    (hm : S3Storage.isOwner m k = false) (hv : (v.permission == Permissions.Owner) = false) :
    ownersCount (jsSet m k v) = ownersCount m := by
  induction m with
  | nil => simp [jsSet, ownersCount_cons, hv, ownersCount]
  | cons p rest ih =>
    obtain ⟨a, w⟩ := p
    by_cases hp : a = k
    · subst hp
      have hw : (w.permission == Permissions.Owner) = false := by
        simpa [S3Storage.isOwner, jsGet] using hm
      simp [jsSet, ownersCount_cons, hw, hv]
    · have hm' : S3Storage.isOwner rest k = false := by
        simpa [S3Storage.isOwner, jsGet, hp] using hm
      simp [jsSet, hp, ownersCount_cons, ih hm']

theorem ownersCount_jsSet_promote (m : List (String × CollaboratorProperties))
    (k : String) (v : CollaboratorProperties)
    (hm : S3Storage.isOwner m k = false) (hv : (v.permission == Permissions.Owner) = true) :
    ownersCount (jsSet m k v) = ownersCount m + 1 := by
  induction m with
  | nil => simp [jsSet, ownersCount_cons, hv, ownersCount]
  | cons p rest ih =>
    obtain ⟨a, w⟩ := p
    by_cases hp : a = k
    · subst hp
      have hw : (w.permission == Permissions.Owner) = false := by
        simpa [S3Storage.isOwner, jsGet] using hm
      simp [jsSet, ownersCount_cons, hw, hv, Nat.add_comm]
    · have hm' : S3Storage.isOwner rest k = false := by
        simpa [S3Storage.isOwner, jsGet, hp] using hm
      simp [jsSet, hp, ownersCount_cons, ih hm']
      omega

theorem ownersCount_jsSet_demote (m : List (String × CollaboratorProperties))
    (k : String) (v e : CollaboratorProperties)
    (hget : jsGet m k = some e) (he : (e.permission == Permissions.Owner) = true)
    (hv : (v.permission == Permissions.Owner) = false) :
    ownersCount (jsSet m k v) + 1 = ownersCount m := by
  induction m with
  | nil => simp [jsGet] at hget
  | cons p rest ih =>
    obtain ⟨a, w⟩ := p
    by_cases hp : a = k
    · subst hp
      have hw : w = e := by simpa [jsGet] using hget
      subst hw
      simp [jsSet, ownersCount_cons, he, hv, Nat.add_comm]
    · have hget' : jsGet rest k = some e := by simpa [jsGet, hp] using hget
      simp [jsSet, hp, ownersCount_cons, ← ih hget']
      omega

theorem ownersCount_jsErase_not_owner (m : List (String × CollaboratorProperties))
    (k : String) (hm : S3Storage.isOwner m k = false) :
    ownersCount (jsErase m k) = ownersCount m := by
  induction m with
  | nil => simp [jsErase]
  | cons p rest ih =>
    obtain ⟨a, w⟩ := p
    by_cases hp : a = k
    · subst hp
      have hw : (w.permission == Permissions.Owner) = false := by
        simpa [S3Storage.isOwner, jsGet] using hm
      simp [jsErase, ownersCount_cons, hw]
    · have hm' : S3Storage.isOwner rest k = false := by
        simpa [S3Storage.isOwner, jsGet, hp] using hm
      simp [jsErase, hp, ownersCount_cons, ih hm']

theorem ownersCount_map_permission_preserving (f : CollaboratorProperties → CollaboratorProperties)
    (hf : ∀ e, (f e).permission = e.permission) (m : List (String × CollaboratorProperties)) :
    ownersCount (m.map fun p => (p.1, f p.2)) = ownersCount m := by
  induction m with
  | nil => rfl
  | cons p rest ih =>
    obtain ⟨a, w⟩ := p
    simp [ownersCount_cons, hf, ih]

theorem isOwner_map_permission_preserving (f : CollaboratorProperties → CollaboratorProperties)
    (hf : ∀ e, (f e).permission = e.permission) (m : List (String × CollaboratorProperties))
    (k : String) :
    S3Storage.isOwner (m.map fun p => (p.1, f p.2)) k = S3Storage.isOwner m k := by
  simp only [S3Storage.isOwner, jsGet_map_snd]
  cases jsGet m k with
  | none => rfl
  | some c => simp [hf]

theorem decorateEntry_permission (c : String) (e : CollaboratorProperties) :
    (decorateEntry c e).permission = e.permission := by
  unfold decorateEntry
  split <;> rfl

theorem stripEntry_permission (e : CollaboratorProperties) :
    (stripEntry e).permission = e.permission := by
  unfold stripEntry
  split <;> rfl

theorem isOwner_true_iff (m : List (String × CollaboratorProperties)) (k : String) :
    S3Storage.isOwner m k = true ↔
      ∃ c, jsGet m k = some c ∧ (c.permission == Permissions.Owner) = true := by
  unfold S3Storage.isOwner
  cases jsGet m k with
  | none => simp
  | some c => simp

theorem isCollaborator_true_iff (m : List (String × CollaboratorProperties)) (k : String) :
    S3Storage.isCollaborator m k = true ↔
      ∃ c, jsGet m k = some c ∧ (c.permission == Permissions.Collaborator) = true := by
  unfold S3Storage.isCollaborator
  cases jsGet m k with
  | none => simp
  | some c => simp

theorem getApp_ok_inv (s : S3StorageState) (acct appId : String) (app : App)
    (h : S3Storage.getApp s acct appId = .ok app) :
    ∃ acc app0, jsGet s.accounts acct = some acc ∧ jsGet s.apps appId = some app0 ∧
      app = addIsCurrentAccountProperty acct app0 := by
  unfold S3Storage.getApp at h
  cases hacc : jsGet s.accounts acct with
  | none =>
    rw [hacc] at h
    exact absurd h (by simp)
  | some acc =>
    cases happ : jsGet s.apps appId with
    | none =>
      rw [hacc, happ] at h
      exact absurd h (by simp)
    | some app0 =>
      rw [hacc, happ] at h
      simp only [Except.ok.injEq] at h
      exact ⟨acc, app0, rfl, rfl, h.symm⟩

theorem updateApp_ok_inv (s : S3StorageState) (acct : String) (app : App) (s' : S3StorageState)
    (h : S3Storage.updateApp s acct app = .ok s') :
    s' = { s with apps := jsSet s.apps (jsKey app.id) (removeIsCurrentAccountProperty app) } := by
  unfold S3Storage.updateApp at h
  cases hacc : jsGet s.accounts acct with
  | none =>
    rw [hacc] at h
    exact absurd h (by simp)
  | some acc =>
    cases happ : jsGet s.apps (jsKey app.id) with
    | none =>
      rw [hacc, happ] at h
      exact absurd h (by simp)
    | some old =>
      rw [hacc, happ] at h
      simp only [Except.ok.injEq] at h
      exact h.symm

theorem addAppPointer_frame (s : S3StorageState) (acct appId : String) (s' : S3StorageState)
    (h : S3Storage.addAppPointer s acct appId = .ok s') :
    s'.apps = s.apps ∧ s'.accounts = s.accounts ∧ s'.emailToAccountMap = s.emailToAccountMap := by
  unfold S3Storage.addAppPointer at h
  cases hm : jsGet s.accountToAppsMap acct with
  | none =>
    rw [hm] at h
    exact absurd h (by simp)
  | some l =>
    rw [hm] at h
    by_cases hc : l.contains appId
    · simp only [hc, if_true, Except.ok.injEq] at h
      rw [← h]
      exact ⟨rfl, rfl, rfl⟩
    · simp only [hc, Bool.false_eq_true, if_false, Except.ok.injEq] at h
      rw [← h]
      exact ⟨rfl, rfl, rfl⟩

theorem removeAppPointer_frame (s : S3StorageState) (acct appId : String) (s' : S3StorageState)
    (h : S3Storage.removeAppPointer s acct appId = .ok s') :
    s'.apps = s.apps ∧ s'.accounts = s.accounts ∧ s'.emailToAccountMap = s.emailToAccountMap := by
  unfold S3Storage.removeAppPointer at h
  cases hm : jsGet s.accountToAppsMap acct with
  | none =>
    rw [hm] at h
    exact absurd h (by simp)
  | some l =>
    rw [hm] at h
    simp only [Except.ok.injEq] at h
    rw [← h]
    exact ⟨rfl, rfl, rfl⟩

/-- A collaborator-map mutation, with the account invoking it and its e-mail
argument. -/
inductive CollabOp where
  | addCollab (accountId email : String)
  | removeCollab (accountId email : String)
  | transfer (accountId email : String)
deriving DecidableEq, Repr

def applyCollabOp (appId : String) (s : S3StorageState) : CollabOp → Except Failure S3StorageState
  | .addCollab acct em => S3Storage.addCollaborator s acct appId em
  | .removeCollab acct em => S3Storage.removeCollaborator s acct appId em
  | .transfer acct em => S3Storage.transferApp s acct appId em

def runCollabOps (appId : String) : S3StorageState → List CollabOp → Except Failure S3StorageState
  | s, [] => .ok s
  | s, op :: rest =>
    match applyCollabOp appId s op with
    | .error e => .error e
    | .ok s1 => runCollabOps appId s1 rest

/-- The e-mail argument is the exact stored e-mail of the account it resolves
to (so the operation's internal re-binding of the e-mail to the account's
stored casing is the identity). -/
def emailIsCanonicalB (s : S3StorageState) (em : String) : Bool :=
  match jsGet s.emailToAccountMap (jsToLower em) with
  | none => true
  | some t =>
    match jsGet s.accounts t with
    | none => true
    | some a => a.email == em

/-- The invoking account's stored e-mail currently holds the `Owner` entry of
the app. -/
def callerIsOwnerB (s : S3StorageState) (appId acct : String) : Bool :=
  match jsGet s.accounts acct, jsGet s.apps appId with
  | some a, some app => S3Storage.isOwner app.collaborators a.email
  | _, _ => true

def collabOpGuardB (s : S3StorageState) (appId : String) : CollabOp → Bool
  | .addCollab _ em => emailIsCanonicalB s em
  | .removeCollab _ _ => true
  | .transfer acct em => emailIsCanonicalB s em && callerIsOwnerB s appId acct

/-- Every operation of the sequence, at the state where it runs, passes its
guard: canonical e-mail arguments throughout, and transfers invoked by the
current owner. -/
def goodCollabOpsB (appId : String) : S3StorageState → List CollabOp → Bool
  | _, [] => true
  | s, op :: rest =>
    collabOpGuardB s appId op &&
      (match applyCollabOp appId s op with
       | .ok s1 => goodCollabOpsB appId s1 rest
       | .error _ => true)

theorem permCollab_beq_owner : (Permissions.Collaborator == Permissions.Owner) = false := by
  decide

theorem permOwner_beq_owner : (Permissions.Owner == Permissions.Owner) = true := by
  decide

theorem ownersCount_strip_set (collabs : List (String × CollaboratorProperties))
    (em : String) (v : CollaboratorProperties)
    (hO : S3Storage.isOwner collabs em = false)
    (hv : (v.permission == Permissions.Owner) = false) :
    ownersCount ((jsSet collabs em v).map fun p => (p.1, stripEntry p.2)) =
      ownersCount collabs := by
  rw [ownersCount_map_permission_preserving stripEntry stripEntry_permission]
  exact ownersCount_jsSet_not_owner _ _ _ hO hv

theorem addCollaborator_preserves_one_owner
    (s : S3StorageState) (acct appId em : String) (s' : S3StorageState)
    (h : S3Storage.addCollaborator s acct appId em = .ok s')
    (hcanon : emailIsCanonicalB s em = true)
    (hinv : hasExactlyOneOwner s appId) :
    hasExactlyOneOwner s' appId := by
  unfold hasExactlyOneOwner at hinv
  cases happ0 : jsGet s.apps appId with
  | none => rw [happ0] at hinv; simp at hinv
  | some app0 =>
    rw [happ0] at hinv
    simp only [Option.map_some', Option.some.injEq] at hinv
    simp only [S3Storage.addCollaborator] at h
    cases hguard : isPrototypePollutionKey em with
    | true =>
      simp only [hguard, if_true] at h
      exact Except.noConfusion h
    | false =>
      simp only [hguard, Bool.false_eq_true, if_false] at h
      cases hget : S3Storage.getApp s acct appId with
      | error e =>
        simp only [hget] at h
        exact Except.noConfusion h
      | ok app =>
        simp only [hget] at h
        obtain ⟨acc, app0', hacc', happ', happdef⟩ := getApp_ok_inv s acct appId app hget
        rw [happ0] at happ'
        have happ0eq : app0 = app0' := Option.some.inj happ'
        subst happ0eq
        cases hdup : S3Storage.isCollaborator app.collaborators em
            || S3Storage.isOwner app.collaborators em with
        | true =>
          simp only [hdup, if_true] at h
          exact Except.noConfusion h
        | false =>
          simp only [hdup, Bool.false_eq_true, if_false] at h
          cases hmap : jsGet s.emailToAccountMap (jsToLower em) with
          | none =>
            simp only [hmap] at h
            exact Except.noConfusion h
          | some target =>
            simp only [hmap] at h
            cases hacct : jsGet s.accounts target with
            | none =>
              simp only [hacct] at h
              exact Except.noConfusion h
            | some targetAccount =>
              simp only [hacct] at h
              have hem : targetAccount.email = em := by
                simp only [emailIsCanonicalB, hmap, hacct] at hcanon
                exact eq_of_beq hcanon
              rw [hem] at h
              cases hptr : S3Storage.addAppPointer s target (jsKey app.id) with
              | error e =>
                simp only [hptr] at h
                exact Except.noConfusion h
              | ok s1 =>
                simp only [hptr] at h
                have hframe := addAppPointer_frame _ _ _ _ hptr
                have hs' := updateApp_ok_inv _ _ _ _ h
                have hOwnerFalse : S3Storage.isOwner app.collaborators em = false := by
                  cases hx : S3Storage.isOwner app.collaborators em
                  · rfl
                  · rw [hx] at hdup; simp at hdup
                subst hs'
                unfold hasExactlyOneOwner
                rw [hframe.1]
                by_cases hk : jsKey app.id = appId
                · rw [← hk, jsGet_jsSet_self]
                  simp only [Option.map_some', Option.some.injEq]
                  have h1 :
                      ownersCount (removeIsCurrentAccountProperty
                        { app with
                          collaborators :=
                            jsSet app.collaborators em
                              { accountId := some target, isCurrentAccount := none,
                                permission := Permissions.Collaborator } }).collaborators =
                        ownersCount app.collaborators :=
                    ownersCount_strip_set app.collaborators em _ hOwnerFalse permCollab_beq_owner
                  have h2 : ownersCount app.collaborators = ownersCount app0.collaborators := by
                    rw [happdef]
                    exact ownersCount_map_permission_preserving (decorateEntry acct)
                      (decorateEntry_permission acct) _
                  exact h1.trans (h2.trans hinv)
                · rw [jsGet_jsSet_ne _ _ _ _ hk, happ0]
                  simp [hinv]

theorem ownersCount_strip_erase (collabs : List (String × CollaboratorProperties))
    (em : String) (hO : S3Storage.isOwner collabs em = false) :
    ownersCount ((jsErase collabs em).map fun p => (p.1, stripEntry p.2)) =
      ownersCount collabs := by
  rw [ownersCount_map_permission_preserving stripEntry stripEntry_permission]
  exact ownersCount_jsErase_not_owner _ _ hO

theorem removeCollaborator_preserves_one_owner
    (s : S3StorageState) (acct appId em : String) (s' : S3StorageState)
    (h : S3Storage.removeCollaborator s acct appId em = .ok s')
    (hinv : hasExactlyOneOwner s appId) :
    hasExactlyOneOwner s' appId := by
  unfold hasExactlyOneOwner at hinv
  cases happ0 : jsGet s.apps appId with
  | none => rw [happ0] at hinv; simp at hinv
  | some app0 =>
    rw [happ0] at hinv
    simp only [Option.map_some', Option.some.injEq] at hinv
    simp only [S3Storage.removeCollaborator] at h
    cases hget : S3Storage.getApp s acct appId with
    | error e =>
      simp only [hget] at h
      exact Except.noConfusion h
    | ok app =>
      simp only [hget] at h
      obtain ⟨acc, app0', hacc', happ', happdef⟩ := getApp_ok_inv s acct appId app hget
      rw [happ0] at happ'
      have happ0eq : app0 = app0' := Option.some.inj happ'
      subst happ0eq
      cases hown : S3Storage.isOwner app.collaborators em with
      | true =>
        simp only [hown, if_true] at h
        exact Except.noConfusion h
      | false =>
        simp only [hown, Bool.false_eq_true, if_false] at h
        cases hmap : jsGet s.emailToAccountMap (jsToLower em) with
        | none =>
          simp only [hmap] at h
          exact Except.noConfusion h
        | some target =>
          simp only [hmap] at h
          cases hcol : S3Storage.isCollaborator app.collaborators em with
          | false =>
            simp only [hcol, Bool.not_false, if_true] at h
            exact Except.noConfusion h
          | true =>
            simp only [hcol, Bool.not_true, Bool.false_eq_true, if_false] at h
            cases hptr : S3Storage.removeAppPointer s target appId with
            | error e =>
              simp only [hptr] at h
              exact Except.noConfusion h
            | ok s1 =>
              simp only [hptr] at h
              have hframe := removeAppPointer_frame _ _ _ _ hptr
              have hs' := updateApp_ok_inv _ _ _ _ h
              subst hs'
              unfold hasExactlyOneOwner
              rw [hframe.1]
              by_cases hk : jsKey app.id = appId
              · rw [← hk, jsGet_jsSet_self]
                simp only [Option.map_some', Option.some.injEq]
                have h1 :
                    ownersCount (removeIsCurrentAccountProperty
                      { app with collaborators := jsErase app.collaborators em }).collaborators =
                      ownersCount app.collaborators :=
                  ownersCount_strip_erase app.collaborators em hown
                have h2 : ownersCount app.collaborators = ownersCount app0.collaborators := by
                  rw [happdef]
                  exact ownersCount_map_permission_preserving (decorateEntry acct)
                    (decorateEntry_permission acct) _
                exact h1.trans (h2.trans hinv)
              · rw [jsGet_jsSet_ne _ _ _ _ hk, happ0]
                simp [hinv]

theorem transferApp_preserves_one_owner
    (s : S3StorageState) (acct appId em : String) (s' : S3StorageState)
    (h : S3Storage.transferApp s acct appId em = .ok s')
    (hcanon : emailIsCanonicalB s em = true)
    (hcaller : callerIsOwnerB s appId acct = true)
    (hinv : hasExactlyOneOwner s appId) :
    hasExactlyOneOwner s' appId := by
  unfold hasExactlyOneOwner at hinv
  cases happ0 : jsGet s.apps appId with
  | none => rw [happ0] at hinv; simp at hinv
  | some app0 =>
    rw [happ0] at hinv
    simp only [Option.map_some', Option.some.injEq] at hinv
    simp only [S3Storage.transferApp] at h
    cases hguard : isPrototypePollutionKey em with
    | true =>
      simp only [hguard, if_true] at h
      exact Except.noConfusion h
    | false =>
      simp only [hguard, Bool.false_eq_true, if_false] at h
      cases hget : S3Storage.getApp s acct appId with
      | error e =>
        simp only [hget] at h
        exact Except.noConfusion h
      | ok app =>
        simp only [hget] at h
        obtain ⟨acc, app0', hacc', happ', happdef⟩ := getApp_ok_inv s acct appId app hget
        rw [happ0] at happ'
        have happ0eq : app0 = app0' := Option.some.inj happ'
        subst happ0eq
        cases hacc : jsGet s.accounts acct with
        | none =>
          simp only [hacc] at h
          exact Except.noConfusion h
        | some account =>
          simp only [hacc] at h
          cases hmap : jsGet s.emailToAccountMap (jsToLower em) with
          | none =>
            simp only [hmap] at h
            exact Except.noConfusion h
          | some target =>
            simp only [hmap] at h
            cases hacct : jsGet s.accounts target with
            | none =>
              simp only [hacct] at h
              exact Except.noConfusion h
            | some targetAccount =>
              simp only [hacct] at h
              have hem : targetAccount.email = em := by
                simp only [emailIsCanonicalB, hmap, hacct] at hcanon
                exact eq_of_beq hcanon
              rw [hem] at h
              -- the requester currently owns the app
              have hreqOwner0 : S3Storage.isOwner app0.collaborators account.email = true := by
                simp only [callerIsOwnerB, hacc, happ0] at hcaller
                exact hcaller
              have hreqOwner : S3Storage.isOwner app.collaborators account.email = true := by
                rw [happdef]
                rw [addIsCurrentAccountProperty]
                exact (isOwner_map_permission_preserving (decorateEntry acct)
                  (decorateEntry_permission acct) app0.collaborators account.email).trans hreqOwner0
              cases hownEm : S3Storage.isOwner app.collaborators em with
              | true =>
                simp only [hownEm, if_true] at h
                exact Except.noConfusion h
              | false =>
                simp only [hownEm, Bool.false_eq_true, if_false] at h
                have hne : account.email ≠ em := by
                  intro he
                  rw [he] at hreqOwner
                  rw [hreqOwner] at hownEm
                  exact Bool.noConfusion hownEm
                obtain ⟨re, hre, hreOwner⟩ := (isOwner_true_iff _ _).mp hreqOwner
                cases hreq : jsGet app.collaborators account.email with
                | none => rw [hreq] at hre; exact Option.noConfusion hre
                | some requesterEntry =>
                  rw [hreq] at hre
                  have hreEq : re = requesterEntry := (Option.some.inj hre).symm
                  subst hreEq
                  simp only [hreq] at h
                  -- the demoted map has zero owners
                  have hm1count :
                      ownersCount (jsSet app.collaborators account.email
                        { re with permission := Permissions.Collaborator }) + 1 =
                        ownersCount app.collaborators :=
                    ownersCount_jsSet_demote app.collaborators account.email _ re hreq hreOwner
                      permCollab_beq_owner
                  have happCount : ownersCount app.collaborators = 1 := by
                    have h2 : ownersCount app.collaborators = ownersCount app0.collaborators := by
                      rw [happdef]
                      exact ownersCount_map_permission_preserving (decorateEntry acct)
                        (decorateEntry_permission acct) _
                    exact h2.trans hinv
                  have hm1zero : ownersCount (jsSet app.collaborators account.email
                      { re with permission := Permissions.Collaborator }) = 0 := by
                    omega
                  have hm1getEm : jsGet (jsSet app.collaborators account.email
                      { re with permission := Permissions.Collaborator }) em =
                      jsGet app.collaborators em :=
                    jsGet_jsSet_ne _ _ _ _ hne
                  have hm1ownEm : S3Storage.isOwner (jsSet app.collaborators account.email
                      { re with permission := Permissions.Collaborator }) em = false := by
                    unfold S3Storage.isOwner at hownEm ⊢
                    rw [hm1getEm]
                    exact hownEm
                  cases hcol : S3Storage.isCollaborator (jsSet app.collaborators account.email
                      { re with permission := Permissions.Collaborator }) em with
                  | true =>
                    simp only [hcol, if_true] at h
                    obtain ⟨te, hte, hteCol⟩ := (isCollaborator_true_iff _ _).mp hcol
                    simp only [hte] at h
                    have hs' := updateApp_ok_inv _ _ _ _ h
                    subst hs'
                    unfold hasExactlyOneOwner
                    by_cases hk : jsKey app.id = appId
                    · rw [← hk, jsGet_jsSet_self]
                      simp only [Option.map_some', Option.some.injEq]
                      have hcount :
                          ownersCount (jsSet (jsSet app.collaborators account.email
                            { re with permission := Permissions.Collaborator }) em
                            { te with permission := Permissions.Owner }) = 1 := by
                        rw [ownersCount_jsSet_promote _ _ _ hm1ownEm permOwner_beq_owner, hm1zero]
                      have hstrip :
                          ownersCount (removeIsCurrentAccountProperty
                            { app with
                              collaborators :=
                                jsSet (jsSet app.collaborators account.email
                                  { re with permission := Permissions.Collaborator }) em
                                  { te with permission := Permissions.Owner } }).collaborators =
                            ownersCount (jsSet (jsSet app.collaborators account.email
                              { re with permission := Permissions.Collaborator }) em
                              { te with permission := Permissions.Owner }) :=
                        ownersCount_map_permission_preserving stripEntry stripEntry_permission _
                      exact hstrip.trans hcount
                    · rw [jsGet_jsSet_ne _ _ _ _ hk, happ0]
                      simp [hinv]
                  | false =>
                    simp only [hcol, Bool.false_eq_true, if_false] at h
                    cases hptr : S3Storage.addAppPointer s target (jsKey app.id) with
                    | error e =>
                      simp only [hptr] at h
                      exact Except.noConfusion h
                    | ok s1 =>
                      simp only [hptr] at h
                      have hframe := addAppPointer_frame _ _ _ _ hptr
                      have hs' := updateApp_ok_inv _ _ _ _ h
                      subst hs'
                      unfold hasExactlyOneOwner
                      rw [hframe.1]
                      by_cases hk : jsKey app.id = appId
                      · rw [← hk, jsGet_jsSet_self]
                        simp only [Option.map_some', Option.some.injEq]
                        have hcount :
                            ownersCount (jsSet (jsSet app.collaborators account.email
                              { re with permission := Permissions.Collaborator }) em
                              { accountId := some target, isCurrentAccount := none,
                                permission := Permissions.Owner }) = 1 := by
                          rw [ownersCount_jsSet_promote _ _ _ hm1ownEm permOwner_beq_owner, hm1zero]
                        have hstrip :
                            ownersCount (removeIsCurrentAccountProperty
                              { app with
                                collaborators :=
                                  jsSet (jsSet app.collaborators account.email
                                    { re with permission := Permissions.Collaborator }) em
                                    { accountId := some target, isCurrentAccount := none,
                                      permission := Permissions.Owner } }).collaborators =
                              ownersCount (jsSet (jsSet app.collaborators account.email
                                { re with permission := Permissions.Collaborator }) em
                                { accountId := some target, isCurrentAccount := none,
                                  permission := Permissions.Owner }) :=
                          ownersCount_map_permission_preserving stripEntry stripEntry_permission _
                        exact hstrip.trans hcount
                      · rw [jsGet_jsSet_ne _ _ _ _ hk, happ0]
                        simp [hinv]

theorem addApp_creates_one_owner
    (s : S3StorageState) (acct : String) (newApp a : App) (s1 : S3StorageState)
    (h : S3Storage.addApp s acct newApp = .ok (a, s1)) :
    hasExactlyOneOwner s1 (jsKey a.id) := by
  simp only [S3Storage.addApp, S3Storage.newId] at h
  cases hacc : jsGet s.accounts acct with
  | none =>
    simp only [hacc] at h
    exact Except.noConfusion h
  | some account =>
    simp only [hacc] at h
    cases hm : jsGet s.accountToAppsMap acct with
    | none =>
      simp only [hm] at h
      exact Except.noConfusion h
    | some accountApps =>
      simp only [hm] at h
      split at h <;>
        split at h <;>
          (simp only [Except.ok.injEq, Prod.mk.injEq] at h
           obtain ⟨ha, hs1⟩ := h
           subst ha
           subst hs1
           unfold hasExactlyOneOwner
           simp only [jsKey, jsGet_jsSet_self, Option.map_some', Option.some.injEq]
           rfl)

theorem runCollabOps_preserves_one_owner :
    ∀ (ops : List CollabOp) (appId : String) (s s' : S3StorageState),
      goodCollabOpsB appId s ops = true →
      runCollabOps appId s ops = .ok s' →
      hasExactlyOneOwner s appId → hasExactlyOneOwner s' appId := by
  intro ops
  induction ops with
  | nil =>
    intro appId s s' hg hr hinv
    simp only [runCollabOps, Except.ok.injEq] at hr
    exact hr ▸ hinv
  | cons op rest ih =>
    intro appId s s' hg hr hinv
    simp only [runCollabOps] at hr
    cases hop : applyCollabOp appId s op with
    | error e =>
      rw [hop] at hr
      exact Except.noConfusion hr
    | ok s1 =>
      rw [hop] at hr
      simp only [goodCollabOpsB, hop, Bool.and_eq_true] at hg
      have hinv1 : hasExactlyOneOwner s1 appId := by
        cases op with
        | addCollab acct em =>
          have hguard : emailIsCanonicalB s em = true := hg.1
          simp only [applyCollabOp] at hop
          exact addCollaborator_preserves_one_owner s acct appId em s1 hop hguard hinv
        | removeCollab acct em =>
          simp only [applyCollabOp] at hop
          exact removeCollaborator_preserves_one_owner s acct appId em s1 hop hinv
        | transfer acct em =>
          have hguard := hg.1
          simp only [collabOpGuardB, Bool.and_eq_true] at hguard
          simp only [applyCollabOp] at hop
          exact transferApp_preserves_one_owner s acct appId em s1 hop hguard.1 hguard.2 hinv
      exact ih appId s1 s' hg.2 hr hinv1

/-- C2 (amended): For every app created through `addApp`, after any sequence
of `addCollaborator`, `removeCollaborator` and `transferApp` operations on it
that individually succeeded — provided every e-mail argument of
`addCollaborator`/`transferApp` is the exact stored e-mail of the account it
resolves to, and every `transferApp` is invoked by the account whose stored
e-mail currently holds the app's `Owner` entry — the app's collaborators map
contains exactly one entry with permission `Owner`.  (The provisos are forced:
`transferApp` demotes the *requester's* entry rather than the owner's, so a
transfer invoked by a non-owner collaborator ends with two Owners, see the
counterexample; and a case-variant e-mail is re-bound to the account's stored
casing after the duplicate check, letting `addCollaborator` overwrite the
Owner entry.) -/
theorem C2_amended_one_owner_invariant :
    ∀ (s0 : S3StorageState) (creatorId : String) (newApp a : App) (s1 : S3StorageState)
      (ops : List CollabOp) (s2 : S3StorageState),
      S3Storage.addApp s0 creatorId newApp = .ok (a, s1) →
      goodCollabOpsB (jsKey a.id) s1 ops = true →
      runCollabOps (jsKey a.id) s1 ops = .ok s2 →
      hasExactlyOneOwner s2 (jsKey a.id) := by
  intro s0 creatorId newApp a s1 ops s2 hadd hgood hrun
  exact runCollabOps_preserves_one_owner ops (jsKey a.id) s1 s2 hgood hrun
    (addApp_creates_one_owner s0 creatorId newApp a s1 hadd)

def c2wA : App :=
  match S3Storage.addApp c2s0 "acctA" c2newApp with
  | .ok p => p.1
  | .error _ => c2newApp

def c2wS1 : S3StorageState :=
  match S3Storage.addApp c2s0 "acctA" c2newApp with
  | .ok p => p.2
  | .error _ => c2s0

/-- The owner `a@x` adds `b@x`, then transfers to `c@x`; `b@x`'s new owner
account transfers back to `a@x`: all owner-invoked with canonical e-mails. -/
def c2wOps : List CollabOp :=
  [CollabOp.addCollab "acctA" "b@x", CollabOp.transfer "acctA" "c@x",
   CollabOp.transfer "acctC" "a@x", CollabOp.removeCollab "acctA" "b@x"]

def c2wS2 : S3StorageState :=
  match runCollabOps (jsKey c2wA.id) c2wS1 c2wOps with
  | .ok s => s
  | .error _ => c2wS1

theorem C2_amended_one_owner_invariant_witness :
    hasExactlyOneOwner c2wS2 (jsKey c2wA.id) :=
  C2_amended_one_owner_invariant c2s0 "acctA" c2newApp c2wA c2wS1 c2wOps c2wS2 rfl rfl rfl

/-! ## C3: id-chain verification (code_bug demonstration) -/

def c3dep : Deployment :=
  { createdTime := 0, id := some "depD", name := "Production", key := "k1" }

/-- Two accounts; `appX` belongs to `acctA` (owner and index maps agree) and
`depD` belongs to `appX`.  `acctB` has no relation to either. -/
def c3s : S3StorageState :=
  { accounts :=
      [("acctA", { createdTime := 0, email := "a@x", id := some "acctA", name := "A" }),
       ("acctB", { createdTime := 0, email := "b@x", id := some "acctB", name := "B" })]
    apps :=
      [("appX",
        { collaborators := [("a@x", { accountId := some "acctA", permission := "Owner" })]
          createdTime := 0, id := some "appX", name := "foo" })]
    deployments := [("depD", c3dep)]
    accountToAppsMap := [("acctA", ["appX"]), ("acctB", [])]
    appToAccountMap := [("appX", "acctA")]
    emailToAccountMap := [("a@x", "acctA"), ("b@x", "acctB")]
    appToDeploymentsMap := [("appX", ["depD"])]
    deploymentToAppMap := [("depD", "appX")] }

/-- C3 (code_bug): `S3Storage` checks only that each id in the chain *exists*,
never that it belongs to its parent — contradicting the contract documented on
the `Storage` interface in storage.ts ("The Storage implementation should
verify that the whole specified id chain is correct, not just the leaf id").
`appX` belongs to `acctA`, yet `getDeployment` called by `acctB` succeeds; and
`clearPackageHistory` succeeds even with account and app ids that do not exist
at all. -/
theorem C3_chain_not_verified :
    jsGet c3s.appToAccountMap "appX" = some "acctA" ∧
    jsGet c3s.accounts "ghostAccount" = none ∧
    jsGet c3s.apps "ghostApp" = none ∧
    S3Storage.getDeployment c3s "acctB" "appX" "depD" = .ok c3dep ∧
    exceptIsOk (S3Storage.clearPackageHistory c3s "ghostAccount" "ghostApp" "depD") = true :=
  ⟨rfl, rfl, rfl, rfl, rfl⟩

/-! ## C8: empty collections vs NotFound (code_bug demonstration) -/

/-- One account with an initialized (empty) app index, one app with an
initialized (empty) deployment index, and no access-key index entry (the
access-key index is only created lazily by `addAccessKey`). -/
def c8s : S3StorageState :=
  { accounts :=
      [("acctA", { createdTime := 0, email := "a@x", id := some "acctA", name := "A" })]
    apps :=
      [("appX",
        { collaborators := [("a@x", { accountId := some "acctA", permission := "Owner" })]
          createdTime := 0, id := some "appX", name := "foo" })]
    accountToAppsMap := [("acctA", [])]
    appToAccountMap := [("appX", "acctA")]
    emailToAccountMap := [("a@x", "acctA")]
    appToDeploymentsMap := [("appX", [])] }

/-- C8 (code_bug): on a valid parent with zero children `getApps` and
`getDeployments` do resolve with an empty sequence, and all three calls fail
`NotFound` on a non-existent parent — but `getAccessKeys` fails `NotFound`
even though the parent account exists, because `accountToAccessKeysMap` is
only populated lazily by `addAccessKey`.  This contradicts the contract
documented on the `Storage` interface in storage.ts ("It should return an
empty array ([]) when retrieving a collection with zero elements, except when
the specified id chain does not exist"). -/
theorem C8_empty_collections :
    (jsGet c8s.accounts "acctA").isSome = true ∧
    S3Storage.getApps c8s "acctA" = .ok [] ∧
    S3Storage.getDeployments c8s "acctA" "appX" = .ok [] ∧
    S3Storage.getApps c8s "ghost" = .error (.storage ErrorCode.NotFound none) ∧
    S3Storage.getDeployments c8s "ghost" "appX" =
      .error (.storage ErrorCode.NotFound none) ∧
    S3Storage.getAccessKeys c8s "ghost" = .error (.storage ErrorCode.NotFound none) ∧
    S3Storage.getAccessKeys c8s "acctA" = .error (.storage ErrorCode.NotFound none) :=
  ⟨rfl, rfl, rfl, rfl, rfl, rfl, rfl⟩

/-! ## C7: updatePackageHistory -/

/-- C7: `updatePackageHistory` with an empty sequence fails `Invalid` for
every state (the guard runs before any lookup or write, so no deployment is
touched — in this pure embedding an error leaves the state with the caller
unchanged); with a non-empty sequence it replaces the whole `packageHistory`
and sets the deployment's current `package` to the last element. -/
theorem C7_updatePackageHistory :
    (∀ (s : S3StorageState) (acct appId did : String),
        S3Storage.updatePackageHistory s acct appId did [] =
          .error (.storage ErrorCode.Invalid
            (some "Cannot clear package history from an update operation"))) ∧
    (∀ (s : S3StorageState) (acct appId did : String) (history : List Package) (d : Deployment),
        history ≠ [] →
        jsGet s.deployments did = some d →
        (S3Storage.updatePackageHistory s acct appId did history).map
            (fun s' => jsGet s'.deployments did) =
          .ok (some { d with package := history.getLast?, packageHistory := history })) := by
  constructor
  · intro s acct appId did
    rfl
  · intro s acct appId did history d hne hdep
    cases history with
    | nil => exact absurd rfl hne
    | cons p rest =>
      simp only [S3Storage.updatePackageHistory, List.isEmpty_cons, Bool.false_eq_true,
        if_false, hdep, Except.map, jsGet_jsSet_self]

def c7p0 : Package :=
  { appVersion := "1.0.0", blobUrl := "u0", description := "", isDisabled := false
    isMandatory := false, label := some "v1", manifestBlobUrl := "m0"
    packageHash := "h0", size := 10, uploadTime := 0 }

def c7dep : Deployment :=
  { createdTime := 0, id := some "depD", name := "Production", key := "k1"
    package := some c7p0, packageHistory := [c7p0] }

def c7p1 : Package :=
  { appVersion := "1.0.1", blobUrl := "u1", description := "", isDisabled := false
    isMandatory := false, manifestBlobUrl := "m1", packageHash := "h1"
    size := 11, uploadTime := 1 }

def c7s : S3StorageState := { deployments := [("depD", c7dep)] }

theorem C7_updatePackageHistory_witness :
    S3Storage.updatePackageHistory c7s "acctA" "appX" "depD" [] =
      .error (.storage ErrorCode.Invalid
        (some "Cannot clear package history from an update operation")) ∧
    (S3Storage.updatePackageHistory c7s "acctA" "appX" "depD" [c7p1, c7p0]).map
        (fun s' => jsGet s'.deployments "depD") =
      .ok (some { c7dep with package := some c7p0, packageHistory := [c7p1, c7p0] }) := by
  constructor
  · exact C7_updatePackageHistory.1 c7s "acctA" "appX" "depD"
  · have h := C7_updatePackageHistory.2 c7s "acctA" "appX" "depD" [c7p1, c7p0] c7dep
      (by decide) rfl
    rw [h]
    rfl

/-! ## C10: updateDeployment never changes the current package -/

/-- C10: a successful `updateDeployment` merges the supplied fields over the
stored deployment but leaves the stored `package` exactly as it was — the
clone's `package` property is deleted before the merge, so even an update
record carrying a `package` field cannot change it (nor the stored
`packageHistory`, which the update record cannot carry). -/
theorem C10_updateDeployment_package_frame :
    ∀ (s : S3StorageState) (acct appId : String) (u : DeploymentUpdate) (old : Deployment),
      (jsGet s.accounts acct).isSome = true →
      (jsGet s.apps appId).isSome = true →
      jsGet s.deployments (jsKey u.id) = some old →
      (S3Storage.updateDeployment s acct appId u).map
          (fun s' => jsGet s'.deployments (jsKey u.id)) =
        .ok (some
          { createdTime := u.createdTime.getD old.createdTime
            id := match u.id with | some i => some i | none => old.id
            name := u.name.getD old.name
            key := u.key.getD old.key
            package := old.package
            packageHistory := old.packageHistory }) := by
  intro s acct appId u old hacc happ hdep
  cases hacc0 : jsGet s.accounts acct with
  | none => rw [hacc0] at hacc; simp at hacc
  | some acc =>
    cases happ0 : jsGet s.apps appId with
    | none => rw [happ0] at happ; simp at happ
    | some app =>
      simp only [S3Storage.updateDeployment, hacc0, happ0, hdep, Except.map, jsGet_jsSet_self]

def c10old : Deployment :=
  { createdTime := 5, id := some "depD", name := "Production", key := "k1"
    package := some c7p0, packageHistory := [c7p0] }

def c10s : S3StorageState :=
  { accounts :=
      [("acctA", { createdTime := 0, email := "a@x", id := some "acctA", name := "A" })]
    apps :=
      [("appX",
        { collaborators := [("a@x", { accountId := some "acctA", permission := "Owner" })]
          createdTime := 0, id := some "appX", name := "foo" })]
    deployments := [("depD", c10old)] }

/-- An update that renames the deployment and *tries* to replace the current
package with `c7p1`. -/
def c10upd : DeploymentUpdate :=
  { id := some "depD", name := "Staging", package := some (some c7p1) }

theorem C10_updateDeployment_package_frame_witness :
    (S3Storage.updateDeployment c10s "acctA" "appX" c10upd).map
        (fun s' => jsGet s'.deployments (jsKey c10upd.id)) =
      .ok (some { c10old with name := "Staging" }) := by
  have h := C10_updateDeployment_package_frame c10s "acctA" "appX" c10upd c10old rfl rfl rfl
  rw [h]
  rfl

/-! ## C6: prototype-pollution denylist -/

/-- The failure code of a rejected operation, if any. -/
def exceptErrorCode {α : Type} : Except Failure α → Option ErrorCode
  | .error (.storage c _) => some c
  | _ => none

/-- One account owning one app; `__proto__` is not a collaborator. -/
def c6s : S3StorageState :=
  { accounts :=
      [("acctA", { createdTime := 0, email := "a@x", id := some "acctA", name := "A" })]
    apps :=
      [("appX",
        { collaborators := [("a@x", { accountId := some "acctA", permission := "Owner" })]
          createdTime := 0, id := some "appX", name := "foo" })]
    accountToAppsMap := [("acctA", ["appX"])]
    appToAccountMap := [("appX", "acctA")]
    emailToAccountMap := [("a@x", "acctA")] }

/-- C6 is false as stated for `removeCollaborator`: the source has no
`isPrototypePollutionKey` guard there, and `removeCollaborator` with the
e-mail `"__proto__"` fails with `NotFound`, not `Invalid`. -/
theorem C6_counterexample :
    exceptErrorCode (S3Storage.removeCollaborator c6s "acctA" "appX" "__proto__") =
      some ErrorCode.NotFound ∧
    ErrorCode.NotFound ≠ ErrorCode.Invalid := by
  exact ⟨rfl, by decide⟩

theorem isCollaborator_map_permission_preserving
    (f : CollaboratorProperties → CollaboratorProperties)
    (hf : ∀ e, (f e).permission = e.permission) (m : List (String × CollaboratorProperties))
    (k : String) :
    S3Storage.isCollaborator (m.map fun p => (p.1, f p.2)) k = S3Storage.isCollaborator m k := by
  simp only [S3Storage.isCollaborator, jsGet_map_snd]
  cases jsGet m k with
  | none => rfl
  | some c => simp [hf]

/-- C6 (amended): `addCollaborator` and `transferApp` reject a denylisted
e-mail (`"__proto__"`, `"constructor"`, `"prototype"`) with `Invalid` as their
very first step, before any lookup (so no state is touched; in this pure
embedding an error leaves the caller's state unchanged by construction).
`removeCollaborator` has no such guard: for a denylisted e-mail that is not a
collaborator-map key of an existing app it fails `NotFound` instead, also
without mutating anything. -/
theorem C6_amended_denylist :
    (∀ (s : S3StorageState) (acct appId em : String),
        isPrototypePollutionKey em = true →
        S3Storage.addCollaborator s acct appId em =
          .error (.storage ErrorCode.Invalid (some "Invalid email parameter"))) ∧
    (∀ (s : S3StorageState) (acct appId em : String),
        isPrototypePollutionKey em = true →
        S3Storage.transferApp s acct appId em =
          .error (.storage ErrorCode.Invalid (some "Invalid email parameter"))) ∧
    (∀ (s : S3StorageState) (acct appId em : String) (app : App),
        isPrototypePollutionKey em = true →
        (jsGet s.accounts acct).isSome = true →
        jsGet s.apps appId = some app →
        jsGet app.collaborators em = none →
        S3Storage.removeCollaborator s acct appId em =
          .error (.storage ErrorCode.NotFound none)) := by
  refine ⟨?_, ?_, ?_⟩
  · intro s acct appId em hem
    simp [S3Storage.addCollaborator, hem]
  · intro s acct appId em hem
    simp [S3Storage.transferApp, hem]
  · intro s acct appId em app _hem hacc happ hnone
    cases hacc0 : jsGet s.accounts acct with
    | none => rw [hacc0] at hacc; simp at hacc
    | some acc =>
      have hget : S3Storage.getApp s acct appId = .ok (addIsCurrentAccountProperty acct app) := by
        simp only [S3Storage.getApp, hacc0, happ]
      have hdecnone : jsGet (addIsCurrentAccountProperty acct app).collaborators em = none := by
        simp only [addIsCurrentAccountProperty]
        rw [jsGet_map_snd, hnone]
        rfl
      have hown : S3Storage.isOwner (addIsCurrentAccountProperty acct app).collaborators em
          = false := by
        unfold S3Storage.isOwner
        rw [hdecnone]
      have hcol : S3Storage.isCollaborator (addIsCurrentAccountProperty acct app).collaborators em
          = false := by
        unfold S3Storage.isCollaborator
        rw [hdecnone]
      simp only [S3Storage.removeCollaborator, hget, hown, Bool.false_eq_true, if_false]
      cases hmap : jsGet s.emailToAccountMap (jsToLower em) with
      | none => rfl
      | some target => simp only [hcol, Bool.not_false, if_true]

theorem C6_amended_denylist_witness :
    S3Storage.addCollaborator c6s "acctA" "appX" "__proto__" =
      .error (.storage ErrorCode.Invalid (some "Invalid email parameter")) ∧
    S3Storage.transferApp c6s "acctA" "appX" "constructor" =
      .error (.storage ErrorCode.Invalid (some "Invalid email parameter")) ∧
    S3Storage.removeCollaborator c6s "acctA" "appX" "prototype" =
      .error (.storage ErrorCode.NotFound none) := by
  refine ⟨?_, ?_, ?_⟩
  · exact C6_amended_denylist.1 c6s "acctA" "appX" "__proto__" (by decide)
  · exact C6_amended_denylist.2.1 c6s "acctA" "appX" "constructor" (by decide)
  · exact C6_amended_denylist.2.2 c6s "acctA" "appX" "prototype"
      ((c6s.apps.head?).get (by decide)).2 (by decide) rfl rfl rfl

/-! ## C4: commitPackage labels and rollout clearing -/

/-- C4: starting from a deployment with empty history, committing `p1`, `p2`,
`p3` in sequence succeeds, assigns labels `v1`, `v2`, `v3` in order, and after
every successful commit only the last history entry may carry a non-null
`rollout` — each commit clears the rollout of the previously last entry
before appending (the histories after the three steps are
`[p1.rollout]`, `[null, p2.rollout]`, `[null, null, p3.rollout]`), and the
deployment's current package becomes the newly labeled package. -/
theorem C4_commit_sequence :
    ∀ (s : S3StorageState) (acct appId did : String) (d0 : Deployment) (p1 p2 p3 : Package),
      (jsGet s.accounts acct).isSome = true →
      (jsGet s.apps appId).isSome = true →
      jsGet s.deployments did = some d0 →
      d0.packageHistory = [] →
      ∃ (r1 r2 r3 : Package) (s1 s2 s3 : S3StorageState),
        S3Storage.commitPackage s acct appId did p1 = .ok (r1, s1) ∧
        S3Storage.commitPackage s1 acct appId did p2 = .ok (r2, s2) ∧
        S3Storage.commitPackage s2 acct appId did p3 = .ok (r3, s3) ∧
        r1.label = some "v1" ∧ r2.label = some "v2" ∧ r3.label = some "v3" ∧
        (jsGet s1.deployments did).map
            (fun d => d.packageHistory.map fun p => p.rollout) = some [p1.rollout] ∧
        (jsGet s2.deployments did).map
            (fun d => d.packageHistory.map fun p => p.rollout) = some [none, p2.rollout] ∧
        (jsGet s3.deployments did).map
            (fun d => d.packageHistory.map fun p => p.rollout) =
          some [none, none, p3.rollout] ∧
        (jsGet s3.deployments did).map
            (fun d => d.packageHistory.map fun p => p.label) =
          some [some "v1", some "v2", some "v3"] ∧
        (jsGet s3.deployments did).map (fun d => d.package) = some (some r3) := by
  intro s acct appId did d0 p1 p2 p3 hacc happ hdep hh0
  cases hacc0 : jsGet s.accounts acct with
  | none => rw [hacc0] at hacc; simp at hacc
  | some acc =>
    cases happ0 : jsGet s.apps appId with
    | none => rw [happ0] at happ; simp at happ
    | some app =>
      refine
        ⟨{ p1 with label := some "v1" }, { p2 with label := some "v2" },
          { p3 with label := some "v3" },
          { s with
            deployments :=
              jsSet s.deployments did
                ({ d0 with
                   package := some { p1 with label := some "v1" }
                   packageHistory := [{ p1 with label := some "v1" }] }) },
          { s with
            deployments :=
              jsSet
                (jsSet s.deployments did
                  ({ d0 with
                     package := some { p1 with label := some "v1" }
                     packageHistory := [{ p1 with label := some "v1" }] }))
                did
                ({ d0 with
                   package := some { p2 with label := some "v2" }
                   packageHistory :=
                     [{ p1 with label := some "v1", rollout := none },
                      { p2 with label := some "v2" }] }) },
          { s with
            deployments :=
              jsSet
                (jsSet
                  (jsSet s.deployments did
                    ({ d0 with
                       package := some { p1 with label := some "v1" }
                       packageHistory := [{ p1 with label := some "v1" }] }))
                  did
                  ({ d0 with
                     package := some { p2 with label := some "v2" }
                     packageHistory :=
                       [{ p1 with label := some "v1", rollout := none },
                        { p2 with label := some "v2" }] }))
                did
                ({ d0 with
                   package := some { p3 with label := some "v3" }
                   packageHistory :=
                     [{ p1 with label := some "v1", rollout := none },
                      { p2 with label := some "v2", rollout := none },
                      { p3 with label := some "v3" }] }) },
          ?_, ?_, ?_, rfl, rfl, rfl, ?_, ?_, ?_, ?_, ?_⟩
      · simp only [S3Storage.commitPackage, hacc0, happ0, hdep, hh0, List.getLast?_nil,
          List.length_nil, Nat.zero_add]
        rfl
      · simp only [S3Storage.commitPackage, hacc0, happ0, jsGet_jsSet_self,
          List.getLast?_singleton, List.dropLast, List.length_append, List.length_cons,
          List.length_nil, Nat.zero_add, List.nil_append]
        rfl
      · simp only [S3Storage.commitPackage, hacc0, happ0, jsGet_jsSet_self,
          List.getLast?_cons_cons, List.getLast?_singleton, List.dropLast,
          List.length_append, List.length_cons, List.length_nil, Nat.zero_add,
          List.nil_append]
        rfl
      · simp only [jsGet_jsSet_self]
        rfl
      · simp only [jsGet_jsSet_self]
        rfl
      · simp only [jsGet_jsSet_self]
        rfl
      · simp only [jsGet_jsSet_self]
        rfl
      · simp only [jsGet_jsSet_self]
        rfl

def c4dep0 : Deployment :=
  { createdTime := 0, id := some "depD", name := "Production", key := "k1" }

def c4s : S3StorageState :=
  { accounts :=
      [("acctA", { createdTime := 0, email := "a@x", id := some "acctA", name := "A" })]
    apps :=
      [("appX",
        { collaborators := [("a@x", { accountId := some "acctA", permission := "Owner" })]
          createdTime := 0, id := some "appX", name := "foo" })]
    deployments := [("depD", c4dep0)] }

def c4p1 : Package :=
  { appVersion := "1.0.0", blobUrl := "u1", description := "", isDisabled := false
    isMandatory := false, manifestBlobUrl := "m1", packageHash := "h1"
    size := 10, uploadTime := 0 }

def c4p2 : Package :=
  { appVersion := "1.0.1", blobUrl := "u2", description := "", isDisabled := false
    isMandatory := false, manifestBlobUrl := "m2", packageHash := "h2"
    rollout := some 50, size := 11, uploadTime := 1 }

def c4p3 : Package :=
  { appVersion := "1.0.2", blobUrl := "u3", description := "", isDisabled := false
    isMandatory := false, manifestBlobUrl := "m3", packageHash := "h3"
    rollout := some 25, size := 12, uploadTime := 2 }

theorem C4_commit_sequence_witness :
    jsGet c4s.deployments "depD" = some c4dep0 ∧
    c4dep0.packageHistory = [] ∧
    exceptIsOk (S3Storage.commitPackage c4s "acctA" "appX" "depD" c4p1) = true := by
  refine ⟨rfl, rfl, ?_⟩
  obtain ⟨r1, r2, r3, s1, s2, s3, h1, h2, h3, l1, l2, l3, ro1, ro2, ro3, lab, pk⟩ :=
    C4_commit_sequence c4s "acctA" "appX" "depD" c4dep0 c4p1 c4p2 c4p3 rfl rfl rfl rfl
  rw [h1]
  rfl

/-! ## C5: removeCollaborator cases -/

theorem map_snd_keys {α β : Type} (f : α → β) (m : List (String × α)) :
    (m.map (fun p => (p.1, f p.2))).map Prod.fst = m.map Prod.fst := by
  induction m with
  | nil => rfl
  | cons p rest ih => simp [ih]

theorem addIsCurrent_id (c : String) (a : App) :
    (addIsCurrentAccountProperty c a).id = a.id := rfl

/-- C5: `removeCollaborator` fails `AlreadyExists` when the e-mail currently
holds the `Owner` entry; fails `NotFound` when the e-mail is not a
`Collaborator` on the app; and otherwise (collaborator entry present, its
account registered, reverse index present) succeeds, deleting that entry and
removing the app from the account's reverse index, while every other entry —
in particular the Owner's — keeps its permission. -/
theorem C5_removeCollaborator_cases :
    (∀ (s : S3StorageState) (acct appId em : String) (app : App),
        (jsGet s.accounts acct).isSome = true →
        jsGet s.apps appId = some app →
        S3Storage.isOwner app.collaborators em = true →
        S3Storage.removeCollaborator s acct appId em =
          .error (.storage ErrorCode.AlreadyExists none)) ∧
    (∀ (s : S3StorageState) (acct appId em : String) (app : App),
        (jsGet s.accounts acct).isSome = true →
        jsGet s.apps appId = some app →
        S3Storage.isOwner app.collaborators em = false →
        S3Storage.isCollaborator app.collaborators em = false →
        S3Storage.removeCollaborator s acct appId em =
          .error (.storage ErrorCode.NotFound none)) ∧
    (∀ (s : S3StorageState) (acct appId em : String) (app : App) (target : String)
        (lst : List String),
        (jsGet s.accounts acct).isSome = true →
        jsGet s.apps appId = some app →
        app.id = some appId →
        (app.collaborators.map Prod.fst).Nodup →
        S3Storage.isOwner app.collaborators em = false →
        S3Storage.isCollaborator app.collaborators em = true →
        jsGet s.emailToAccountMap (jsToLower em) = some target →
        jsGet s.accountToAppsMap target = some lst →
        ∃ s', S3Storage.removeCollaborator s acct appId em = .ok s' ∧
          jsGet s'.accountToAppsMap target = some (lst.erase appId) ∧
          ∃ app', jsGet s'.apps appId = some app' ∧
            jsGet app'.collaborators em = none ∧
            ∀ k, k ≠ em →
              (jsGet app'.collaborators k).map (fun e => e.permission) =
                (jsGet app.collaborators k).map (fun e => e.permission)) := by
  refine ⟨?_, ?_, ?_⟩
  · intro s acct appId em app hacc happ hown
    cases hacc0 : jsGet s.accounts acct with
    | none => rw [hacc0] at hacc; simp at hacc
    | some acc =>
      have hget : S3Storage.getApp s acct appId = .ok (addIsCurrentAccountProperty acct app) := by
        simp only [S3Storage.getApp, hacc0, happ]
      have hdecown :
          S3Storage.isOwner (addIsCurrentAccountProperty acct app).collaborators em = true := by
        rw [addIsCurrentAccountProperty]
        exact (isOwner_map_permission_preserving (decorateEntry acct)
          (decorateEntry_permission acct) app.collaborators em).trans hown
      simp only [S3Storage.removeCollaborator, hget, hdecown, if_true]
  · intro s acct appId em app hacc happ hown hcol
    cases hacc0 : jsGet s.accounts acct with
    | none => rw [hacc0] at hacc; simp at hacc
    | some acc =>
      have hget : S3Storage.getApp s acct appId = .ok (addIsCurrentAccountProperty acct app) := by
        simp only [S3Storage.getApp, hacc0, happ]
      have hdecown :
          S3Storage.isOwner (addIsCurrentAccountProperty acct app).collaborators em = false := by
        rw [addIsCurrentAccountProperty]
        exact (isOwner_map_permission_preserving (decorateEntry acct)
          (decorateEntry_permission acct) app.collaborators em).trans hown
      have hdeccol :
          S3Storage.isCollaborator (addIsCurrentAccountProperty acct app).collaborators em =
            false := by
        rw [addIsCurrentAccountProperty]
        exact (isCollaborator_map_permission_preserving (decorateEntry acct)
          (decorateEntry_permission acct) app.collaborators em).trans hcol
      simp only [S3Storage.removeCollaborator, hget, hdecown, Bool.false_eq_true, if_false]
      cases hmap : jsGet s.emailToAccountMap (jsToLower em) with
      | none => rfl
      | some target => simp only [hdeccol, Bool.not_false, if_true]
  · intro s acct appId em app target lst hacc happ hid hnd hown hcol hmap hlst
    cases hacc0 : jsGet s.accounts acct with
    | none => rw [hacc0] at hacc; simp at hacc
    | some acc =>
      have hget : S3Storage.getApp s acct appId = .ok (addIsCurrentAccountProperty acct app) := by
        simp only [S3Storage.getApp, hacc0, happ]
      have hdecown :
          S3Storage.isOwner (addIsCurrentAccountProperty acct app).collaborators em = false := by
        rw [addIsCurrentAccountProperty]
        exact (isOwner_map_permission_preserving (decorateEntry acct)
          (decorateEntry_permission acct) app.collaborators em).trans hown
      have hdeccol :
          S3Storage.isCollaborator (addIsCurrentAccountProperty acct app).collaborators em =
            true := by
        rw [addIsCurrentAccountProperty]
        exact (isCollaborator_map_permission_preserving (decorateEntry acct)
          (decorateEntry_permission acct) app.collaborators em).trans hcol
      refine ⟨{ s with
          accountToAppsMap := jsSet s.accountToAppsMap target (lst.erase appId)
          apps := jsSet s.apps appId (removeIsCurrentAccountProperty
            { addIsCurrentAccountProperty acct app with
              collaborators :=
                jsErase (addIsCurrentAccountProperty acct app).collaborators em }) }, ?_, ?_, ?_⟩
      · simp only [S3Storage.removeCollaborator, hget, hdecown, Bool.false_eq_true, if_false,
          hmap, hdeccol, Bool.not_true, if_false, S3Storage.removeAppPointer, hlst,
          S3Storage.updateApp, addIsCurrent_id, jsKey, hid, hacc0, happ]
      · simp only [jsGet_jsSet_self]
      · refine ⟨removeIsCurrentAccountProperty
          { addIsCurrentAccountProperty acct app with
            collaborators := jsErase (addIsCurrentAccountProperty acct app).collaborators em },
          by simp only [jsGet_jsSet_self], ?_, ?_⟩
        · rw [removeIsCurrentAccountProperty]
          simp only [jsGet_map_snd]
          rw [jsGet_jsErase_self]
          · rfl
          · rw [addIsCurrentAccountProperty]
            simp only [map_snd_keys]
            exact hnd
        · intro k hk
          rw [removeIsCurrentAccountProperty]
          simp only [jsGet_map_snd]
          rw [jsGet_jsErase_ne _ _ _ (fun hh => hk hh.symm)]
          rw [addIsCurrentAccountProperty]
          simp only [jsGet_map_snd]
          cases jsGet app.collaborators k with
          | none => rfl
          | some e =>
            simp only [Option.map_some']
            rw [stripEntry_permission, decorateEntry_permission]

def c5app : App :=
  { collaborators :=
      [("a@x", { accountId := some "acctA", permission := "Owner" }),
       ("b@x", { accountId := some "acctB", permission := "Collaborator" })]
    createdTime := 0, id := some "appX", name := "foo" }

def c5s : S3StorageState :=
  { accounts :=
      [("acctA", { createdTime := 0, email := "a@x", id := some "acctA", name := "A" }),
       ("acctB", { createdTime := 0, email := "b@x", id := some "acctB", name := "B" })]
    apps := [("appX", c5app)]
    accountToAppsMap := [("acctA", ["appX"]), ("acctB", ["appX"])]
    appToAccountMap := [("appX", "acctA")]
    emailToAccountMap := [("a@x", "acctA"), ("b@x", "acctB")] }

theorem C5_removeCollaborator_cases_witness :
    S3Storage.removeCollaborator c5s "acctA" "appX" "a@x" =
      .error (.storage ErrorCode.AlreadyExists none) ∧
    S3Storage.removeCollaborator c5s "acctA" "appX" "c@x" =
      .error (.storage ErrorCode.NotFound none) ∧
    exceptIsOk (S3Storage.removeCollaborator c5s "acctA" "appX" "b@x") = true := by
  refine ⟨?_, ?_, ?_⟩
  · exact C5_removeCollaborator_cases.1 c5s "acctA" "appX" "a@x" c5app rfl rfl (by decide)
  · exact C5_removeCollaborator_cases.2.1 c5s "acctA" "appX" "c@x" c5app rfl rfl
      (by decide) (by decide)
  · obtain ⟨s', hok, hidx, app', happ', hnone, hperm⟩ :=
      C5_removeCollaborator_cases.2.2 c5s "acctA" "appX" "b@x" c5app "acctB" ["appX"]
        rfl rfl rfl (by decide) (by decide) (by decide) rfl rfl
    rw [hok]
    rfl

/-! ## C9: transferApp round trip -/

theorem addIsCurrent_collaborators (c : String) (a : App) :
    (addIsCurrentAccountProperty c a).collaborators =
      a.collaborators.map fun p => (p.1, decorateEntry c p.2) := rfl

/-- Success characterization of `transferApp` when the requester has a
collaborator entry, the target e-mail is canonical for a registered account,
the target does not already own the app, and (if a fresh entry is needed) the
target's reverse index is present: the call succeeds, the target's entry ends
as `Owner`, the requester's entry ends as `Collaborator`, and every other
entry keeps its permission. -/
theorem removeIsCurrent_collaborators (a : App) :
    (removeIsCurrentAccountProperty a).collaborators =
      a.collaborators.map fun p => (p.1, stripEntry p.2) := rfl

theorem transferApp_ok_spec
    (s : S3StorageState) (acct appId em : String) (account targetAccount : Account)
    (targetId : String) (app : App) (re : CollaboratorProperties)
    (hguard : isPrototypePollutionKey em = false)
    (hacc : jsGet s.accounts acct = some account)
    (happ : jsGet s.apps appId = some app)
    (hid : app.id = some appId)
    (hmap : jsGet s.emailToAccountMap (jsToLower em) = some targetId)
    (htacc : jsGet s.accounts targetId = some targetAccount)
    (hemail : targetAccount.email = em)
    (hreq : jsGet app.collaborators account.email = some re)
    (hreqne : account.email ≠ em)
    (hnotOwner : S3Storage.isOwner app.collaborators em = false)
    (hptrOk : S3Storage.isCollaborator app.collaborators em = false →
      exceptIsOk (S3Storage.addAppPointer s targetId appId) = true) :
    ∃ s' app',
      S3Storage.transferApp s acct appId em = .ok s' ∧
      s'.accounts = s.accounts ∧
      s'.emailToAccountMap = s.emailToAccountMap ∧
      jsGet s'.apps appId = some app' ∧
      app'.id = app.id ∧
      (jsGet app'.collaborators em).map (fun e => e.permission) =
        some Permissions.Owner ∧
      (jsGet app'.collaborators account.email).map (fun e => e.permission) =
        some Permissions.Collaborator ∧
      ∀ k, k ≠ em → k ≠ account.email →
        (jsGet app'.collaborators k).map (fun e => e.permission) =
          (jsGet app.collaborators k).map (fun e => e.permission) := by
  have hget : S3Storage.getApp s acct appId = .ok (addIsCurrentAccountProperty acct app) := by
    simp only [S3Storage.getApp, hacc, happ]
  have hdecNotOwner :
      S3Storage.isOwner (addIsCurrentAccountProperty acct app).collaborators em = false := by
    rw [addIsCurrent_collaborators]
    exact (isOwner_map_permission_preserving (decorateEntry acct)
      (decorateEntry_permission acct) app.collaborators em).trans hnotOwner
  have hreqdec :
      jsGet (addIsCurrentAccountProperty acct app).collaborators account.email =
        some (decorateEntry acct re) := by
    rw [addIsCurrent_collaborators, jsGet_map_snd, hreq]
    rfl
  have hm1em :
      jsGet (jsSet (addIsCurrentAccountProperty acct app).collaborators account.email
          { decorateEntry acct re with permission := Permissions.Collaborator }) em =
        (jsGet app.collaborators em).map (decorateEntry acct) := by
    rw [jsGet_jsSet_ne _ _ _ _ hreqne, addIsCurrent_collaborators, jsGet_map_snd]
  cases hcol : S3Storage.isCollaborator app.collaborators em with
  | true =>
    obtain ⟨ce, hce, hceperm⟩ := (isCollaborator_true_iff _ _).mp hcol
    have hm1some :
        jsGet (jsSet (addIsCurrentAccountProperty acct app).collaborators account.email
            { decorateEntry acct re with permission := Permissions.Collaborator }) em =
          some (decorateEntry acct ce) := by
      rw [hm1em, hce]
      rfl
    have hcolm1 :
        S3Storage.isCollaborator
          (jsSet (addIsCurrentAccountProperty acct app).collaborators account.email
            { decorateEntry acct re with permission := Permissions.Collaborator }) em =
          true := by
      apply (isCollaborator_true_iff _ _).mpr
      exact ⟨decorateEntry acct ce, hm1some, by rw [decorateEntry_permission]; exact hceperm⟩
    have htotal :
        S3Storage.transferApp s acct appId em =
          .ok { s with
                apps := jsSet s.apps appId (removeIsCurrentAccountProperty
                  { addIsCurrentAccountProperty acct app with
                    collaborators :=
                      jsSet (jsSet (addIsCurrentAccountProperty acct app).collaborators
                          account.email
                          { decorateEntry acct re with permission := Permissions.Collaborator })
                        em { decorateEntry acct ce with permission := Permissions.Owner } }) } := by
      simp only [S3Storage.transferApp, hguard, Bool.false_eq_true, if_false, hget, hacc,
        hmap, htacc, hemail, hdecNotOwner, hreqdec, hcolm1, if_true, hm1some,
        S3Storage.updateApp, addIsCurrent_id, hid, jsKey, happ]
    refine ⟨_,
      removeIsCurrentAccountProperty
        { addIsCurrentAccountProperty acct app with
          collaborators :=
            jsSet (jsSet (addIsCurrentAccountProperty acct app).collaborators account.email
                { decorateEntry acct re with permission := Permissions.Collaborator })
              em { decorateEntry acct ce with permission := Permissions.Owner } },
      htotal, rfl, rfl, by simp only [jsGet_jsSet_self], rfl, ?_, ?_, ?_⟩
    · rw [removeIsCurrent_collaborators]
      simp only [jsGet_map_snd, jsGet_jsSet_self, Option.map_some']
      rw [stripEntry_permission]
    · rw [removeIsCurrent_collaborators]
      simp only [jsGet_map_snd]
      rw [jsGet_jsSet_ne _ _ _ _ (Ne.symm hreqne), jsGet_jsSet_self]
      simp only [Option.map_some']
      rw [stripEntry_permission]
    · intro k hkem hkreq
      rw [removeIsCurrent_collaborators]
      simp only [jsGet_map_snd]
      rw [jsGet_jsSet_ne _ _ _ _ (fun hh => hkem hh.symm),
        jsGet_jsSet_ne _ _ _ _ (fun hh => hkreq hh.symm)]
      rw [addIsCurrent_collaborators, jsGet_map_snd]
      cases jsGet app.collaborators k with
      | none => rfl
      | some e =>
        simp only [Option.map_some']
        rw [stripEntry_permission, decorateEntry_permission]
  | false =>
    have hcolm1 :
        S3Storage.isCollaborator
          (jsSet (addIsCurrentAccountProperty acct app).collaborators account.email
            { decorateEntry acct re with permission := Permissions.Collaborator }) em =
          false := by
      unfold S3Storage.isCollaborator
      rw [hm1em]
      unfold S3Storage.isCollaborator at hcol
      cases hce : jsGet app.collaborators em with
      | none => rfl
      | some e =>
        rw [hce] at hcol
        simp only [Option.map_some']
        rw [decorateEntry_permission]
        exact hcol
    cases hptr : S3Storage.addAppPointer s targetId appId with
    | error e =>
      exact absurd (hptrOk hcol) (by rw [hptr]; simp [exceptIsOk])
    | ok s1 =>
      obtain ⟨hf1, hf2, hf3⟩ := addAppPointer_frame _ _ _ _ hptr
      have htotal :
          S3Storage.transferApp s acct appId em =
            .ok { s1 with
                  apps := jsSet s.apps appId (removeIsCurrentAccountProperty
                    { addIsCurrentAccountProperty acct app with
                      collaborators :=
                        jsSet (jsSet (addIsCurrentAccountProperty acct app).collaborators
                            account.email
                            { decorateEntry acct re with
                              permission := Permissions.Collaborator })
                          em { accountId := some targetId, isCurrentAccount := none,
                               permission := Permissions.Owner } }) } := by
        simp only [S3Storage.transferApp, hguard, Bool.false_eq_true, if_false, hget, hacc,
          hmap, htacc, hemail, hdecNotOwner, hreqdec, hcolm1, if_false, addIsCurrent_id,
          hid, jsKey, hptr, S3Storage.updateApp, hf1, hf2, happ]
      refine ⟨_,
        removeIsCurrentAccountProperty
          { addIsCurrentAccountProperty acct app with
            collaborators :=
              jsSet (jsSet (addIsCurrentAccountProperty acct app).collaborators account.email
                  { decorateEntry acct re with permission := Permissions.Collaborator })
                em { accountId := some targetId, isCurrentAccount := none,
                     permission := Permissions.Owner } },
        htotal, hf2, hf3, by simp only [jsGet_jsSet_self], rfl, ?_, ?_, ?_⟩
      · rw [removeIsCurrent_collaborators]
        simp only [jsGet_map_snd, jsGet_jsSet_self, Option.map_some']
        rw [stripEntry_permission]
      · rw [removeIsCurrent_collaborators]
        simp only [jsGet_map_snd]
        rw [jsGet_jsSet_ne _ _ _ _ (Ne.symm hreqne), jsGet_jsSet_self]
        simp only [Option.map_some']
        rw [stripEntry_permission]
      · intro k hkem hkreq
        rw [removeIsCurrent_collaborators]
        simp only [jsGet_map_snd]
        rw [jsGet_jsSet_ne _ _ _ _ (fun hh => hkem hh.symm),
          jsGet_jsSet_ne _ _ _ _ (fun hh => hkreq hh.symm)]
        rw [addIsCurrent_collaborators, jsGet_map_snd]
        cases jsGet app.collaborators k with
        | none => rfl
        | some e =>
          simp only [Option.map_some']
          rw [stripEntry_permission, decorateEntry_permission]

theorem permCollab_beq_collab :
    (Permissions.Collaborator == Permissions.Collaborator) = true := by decide

/-- C9: for an app whose `Owner` entry belongs to account `A`, a successful
`transferApp` to `B`'s e-mail (invoked by `A`) followed by a successful
`transferApp` back to `A`'s e-mail (invoked by the new owner `B`) restores
`A`'s collaborator entry to permission `Owner` and leaves `B`'s entry at
permission `Collaborator`.  (`A`'s entry needs only to exist for the calls to
run; the hypotheses require registered canonical e-mails for both accounts,
`B` not already the owner, and `B`'s reverse index present in case a fresh
entry must be created.) -/
theorem C9_transfer_round_trip :
    ∀ (s : S3StorageState) (acctA acctB appId : String) (A B : Account) (app : App)
      (entryA : CollaboratorProperties),
      isPrototypePollutionKey A.email = false →
      isPrototypePollutionKey B.email = false →
      jsGet s.accounts acctA = some A →
      jsGet s.accounts acctB = some B →
      jsGet s.emailToAccountMap (jsToLower A.email) = some acctA →
      jsGet s.emailToAccountMap (jsToLower B.email) = some acctB →
      jsGet s.apps appId = some app →
      app.id = some appId →
      jsGet app.collaborators A.email = some entryA →
      A.email ≠ B.email →
      S3Storage.isOwner app.collaborators B.email = false →
      (S3Storage.isCollaborator app.collaborators B.email = false →
        exceptIsOk (S3Storage.addAppPointer s acctB appId) = true) →
      ∃ s1 s2 app2,
        S3Storage.transferApp s acctA appId B.email = .ok s1 ∧
        S3Storage.transferApp s1 acctB appId A.email = .ok s2 ∧
        jsGet s2.apps appId = some app2 ∧
        (jsGet app2.collaborators A.email).map (fun e => e.permission) =
          some Permissions.Owner ∧
        (jsGet app2.collaborators B.email).map (fun e => e.permission) =
          some Permissions.Collaborator := by
  intro s acctA acctB appId A B app entryA hpA hpB haccA haccB hmapA hmapB happ hid hentA hne
    hBnotOwner hptrB
  obtain ⟨s1, app1, h1, hacc1, hmail1, happ1, hid1, hOwnB, hColA, hframe⟩ :=
    transferApp_ok_spec s acctA appId B.email A B acctB app entryA hpB haccA happ hid hmapB
      haccB rfl hentA hne hBnotOwner hptrB
  have haccB1 : jsGet s1.accounts acctB = some B := by rw [hacc1]; exact haccB
  have haccA1 : jsGet s1.accounts acctA = some A := by rw [hacc1]; exact haccA
  have hmapA1 : jsGet s1.emailToAccountMap (jsToLower A.email) = some acctA := by
    rw [hmail1]; exact hmapA
  have hid1' : app1.id = some appId := hid1.trans hid
  cases hgB : jsGet app1.collaborators B.email with
  | none =>
    rw [hgB] at hOwnB
    exact absurd hOwnB (by simp)
  | some re2 =>
    cases hgA : jsGet app1.collaborators A.email with
    | none =>
      rw [hgA] at hColA
      exact absurd hColA (by simp)
    | some eA =>
      rw [hgA, Option.map_some'] at hColA
      have heAperm : eA.permission = Permissions.Collaborator := Option.some.inj hColA
      have hAnotOwner1 : S3Storage.isOwner app1.collaborators A.email = false := by
        unfold S3Storage.isOwner
        simp only [hgA]
        rw [heAperm]
        exact permCollab_beq_owner
      have hColA1 : S3Storage.isCollaborator app1.collaborators A.email = true := by
        apply (isCollaborator_true_iff _ _).mpr
        exact ⟨eA, hgA, by rw [heAperm]; exact permCollab_beq_collab⟩
      have hptrA1 : S3Storage.isCollaborator app1.collaborators A.email = false →
          exceptIsOk (S3Storage.addAppPointer s1 acctA appId) = true := by
        intro hc
        exact absurd (hColA1.symm.trans hc) (by decide)
      obtain ⟨s2, app2, h2, hacc2, hmail2, happ2, hid2, hOwnA2, hColReq2, hframe2⟩ :=
        transferApp_ok_spec s1 acctB appId A.email B A acctA app1 re2 hpA haccB1 happ1 hid1'
          hmapA1 haccA1 rfl hgB (Ne.symm hne) hAnotOwner1 hptrA1
      exact ⟨s1, s2, app2, h1, h2, happ2, hOwnA2, hColReq2⟩

def c9A : Account := { createdTime := 0, email := "a@x", id := some "acctA", name := "A" }

def c9B : Account := { createdTime := 0, email := "b@x", id := some "acctB", name := "B" }

def c9app : App :=
  { collaborators :=
      [("a@x", { accountId := some "acctA", isCurrentAccount := none, permission := "Owner" })]
    createdTime := 0, id := some "appX", name := "foo" }

def c9s : S3StorageState :=
  { accounts := [("acctA", c9A), ("acctB", c9B)]
    apps := [("appX", c9app)]
    accountToAppsMap := [("acctA", ["appX"]), ("acctB", [])]
    appToAccountMap := [("appX", "acctA")]
    emailToAccountMap := [("a@x", "acctA"), ("b@x", "acctB")] }

def c9s1 : S3StorageState :=
  match S3Storage.transferApp c9s "acctA" "appX" c9B.email with
  | .ok x => x
  | .error _ => c9s

theorem C9_transfer_round_trip_witness :
    exceptIsOk (S3Storage.transferApp c9s "acctA" "appX" c9B.email) = true ∧
    exceptIsOk (S3Storage.transferApp c9s1 "acctB" "appX" c9A.email) = true := by
  obtain ⟨s1, s2, app2, h1, h2, happ2, hA, hB⟩ :=
    C9_transfer_round_trip c9s "acctA" "acctB" "appX" c9A c9B c9app
      { accountId := some "acctA", isCurrentAccount := none, permission := "Owner" }
      (by decide) (by decide) rfl rfl rfl rfl rfl rfl rfl (by decide) (by decide)
      (fun _ => rfl)
  have hs1 : c9s1 = s1 := by unfold c9s1; rw [h1]
  constructor
  · rw [h1]; rfl
  · rw [hs1, h2]; rfl
